import Mathlib

/-!
Verification of the agent orchestration core of `core_agentic_brain`:
circuit breaker (`app/tool/circuit_breaker.py`), tool registry masking
(`app/tool_manager.py`), memory compaction (`app/memory_manager.py`) and
the orchestrator actor (`orchestrator/actors/orchestrator.py`), embedded
shallowly as pure Lean functions.  Wall-clock instants (`time.time()`)
are modelled as rationals passed explicitly to each operation.
-/

set_option autoImplicit false

namespace PyDict

/-- Lookup in a Python-dict-like association list (first binding wins;
`alistUpd` keeps at most one binding per key). -/
def alistFind {α : Type} (l : List (String × α)) (k : String) : Option α :=
  match l with
  | [] => none
  | (k', v) :: rest => if k' = k then some v else alistFind rest k

/-- Python-dict update `d[k] = v`: replace the binding in place, or append
a fresh binding at the end (Python dicts preserve insertion order). -/
def alistUpd {α : Type} (l : List (String × α)) (k : String) (v : α) : List (String × α) :=
  match l with
  | [] => [(k, v)]
  | (k', v') :: rest =>
    if k' = k then (k, v) :: rest else (k', v') :: alistUpd rest k v

/-- Python-dict `d.pop(k, None)`: drop the binding for `k` if present. -/
def alistPop {α : Type} (l : List (String × α)) (k : String) : List (String × α) :=
  match l with
  | [] => []
  | (k', v') :: rest =>
    if k' = k then alistPop rest k else (k', v') :: alistPop rest k

end PyDict

namespace CircuitBreakerModel

/-- `CircuitState` enum of `circuit_breaker.py`. -/
inductive CircuitState
  | closed
  | «open»
  | half_open
  deriving DecidableEq, Repr

/-- The `CircuitBreaker` dataclass: configuration fields plus internal
state, with the dataclass defaults (`failure_threshold=3`,
`recovery_timeout=30*60`, `half_open_max_calls=1`, state `closed`). -/
structure CircuitBreaker where
  failure_threshold : Nat := 3
  recovery_timeout : Rat := 30 * 60
  half_open_max_calls : Nat := 1
  state : CircuitState := CircuitState.closed
  failure_count : Nat := 0
  last_failure_time : Option Rat := none
  half_open_calls : Nat := 0
  consecutive_successes : Nat := 0
  deriving DecidableEq, Repr

/-- `CircuitBreaker.record_success`: bump the success streak; in
`half_open` close the breaker and clear counters, in `closed` decrement
`failure_count` toward 0. -/
def record_success (cb : CircuitBreaker) : CircuitBreaker :=
  let cb := { cb with consecutive_successes := cb.consecutive_successes + 1 }
  if cb.state = CircuitState.half_open then
    { cb with state := CircuitState.closed, failure_count := 0, half_open_calls := 0 }
  else if cb.state = CircuitState.closed then
    { cb with failure_count := cb.failure_count - 1 }
  else cb

/-- `CircuitBreaker.record_failure` at wall-clock instant `now`: reset the
success streak, count the failure and stamp `last_failure_time`; trip to
`open` (returning `true`) when the count reaches the threshold or when the
breaker was probing in `half_open`. -/
def record_failure (cb : CircuitBreaker) (now : Rat) : Bool × CircuitBreaker :=
  let cb' := { cb with
    consecutive_successes := 0
    failure_count := cb.failure_count + 1
    last_failure_time := some now }
  if cb'.failure_threshold ≤ cb'.failure_count then
    (true, { cb' with state := CircuitState.«open» })
  else if cb'.state = CircuitState.half_open then
    (true, { cb' with state := CircuitState.«open» })
  else
    (false, cb')

/-- `CircuitBreaker.should_allow_request` at instant `now`.  `closed`
always allows; `open` allows (moving to `half_open` with a fresh probe
counter) only when `last_failure_time` is truthy (non-`None`, non-zero)
and more than `recovery_timeout` seconds have elapsed; `half_open` allows
while the probe counter is below `half_open_max_calls`, consuming one
probe per allowed call. -/
def should_allow_request (cb : CircuitBreaker) (now : Rat) : Bool × CircuitBreaker :=
  match cb.state with
  | CircuitState.closed => (true, cb)
  | CircuitState.«open» =>
    match cb.last_failure_time with
    | some t =>
      if t ≠ 0 ∧ cb.recovery_timeout < now - t then
        (true, { cb with state := CircuitState.half_open, half_open_calls := 0 })
      else
        (false, cb)
    | none => (false, cb)
  | CircuitState.half_open =>
    if cb.half_open_calls < cb.half_open_max_calls then
      (true, { cb with half_open_calls := cb.half_open_calls + 1 })
    else
      (false, cb)

/-- A freshly constructed `CircuitBreaker(failure_threshold=th,
recovery_timeout=rt, half_open_max_calls=mx)`. -/
def freshBreaker (th : Nat) (rt : Rat) (mx : Nat) : CircuitBreaker :=
  { failure_threshold := th, recovery_timeout := rt, half_open_max_calls := mx }

/-- Fold a list of `record_failure` calls (at the given instants) over a
breaker, collecting the returned booleans. -/
def recordFailures (cb : CircuitBreaker) : List Rat → List Bool × CircuitBreaker
  | [] => ([], cb)
  | t :: ts =>
    let (b, cb1) := record_failure cb t
    let (bs, cb2) := recordFailures cb1 ts
    (b :: bs, cb2)

/-- Fold a list of `should_allow_request` calls (at the given instants)
over a breaker, collecting the returned booleans. -/
def allowRequests (cb : CircuitBreaker) : List Rat → List Bool × CircuitBreaker
  | [] => ([], cb)
  | t :: ts =>
    let (b, cb1) := should_allow_request cb t
    let (bs, cb2) := allowRequests cb1 ts
    (b :: bs, cb2)

/-- `pat in hay` on `List Char`: contiguous-sublist test, embedding
Python's substring operator `in` for strings. -/
def sublistCheck (pat : List Char) : List Char → Bool
  | [] => pat.isEmpty
  | c :: rest => pat.isPrefixOf (c :: rest) || sublistCheck pat rest

/-- Python `pattern in error` on strings. -/
def strContainsSub (hay pat : String) : Bool :=
  sublistCheck pat.data hay.data

/-- `ToolCircuitBreakerManager.INIT_ERROR_PATTERNS`. -/
def INIT_ERROR_PATTERNS : List String :=
  [ "Browser.__init__() got an unexpected keyword argument"
  , "Playwright not installed"
  , "BrowserType.launch"
  , "Browser initialization failed"
  , "Cannot launch browser"
  , "Browser config error" ]

/-- `any(pattern in error for pattern in self.INIT_ERROR_PATTERNS)` in
`ToolCircuitBreakerManager.record_tool_failure`. -/
def isInitError (error : String) : Bool :=
  INIT_ERROR_PATTERNS.any (fun p => strContainsSub error p)

/-- `ToolCircuitBreakerManager`: the per-tool-name breaker table
(`self.breakers: Dict[str, CircuitBreaker]`). -/
structure ToolCircuitBreakerManager where
  breakers : List (String × CircuitBreaker) := []
  deriving DecidableEq, Repr

/-- `ToolCircuitBreakerManager.get_breaker`: lazily create a default
breaker for an unseen tool name; returns the breaker together with the
manager in which it is now stored. -/
def get_breaker (m : ToolCircuitBreakerManager) (tool : String) :
    CircuitBreaker × ToolCircuitBreakerManager :=
  match PyDict.alistFind m.breakers tool with
  | some br => (br, m)
  | none =>
    (({} : CircuitBreaker), ⟨m.breakers ++ [(tool, ({} : CircuitBreaker))]⟩)

/-- `ToolCircuitBreakerManager.should_use_tool` at instant `now`
(the in-place mutation of the stored breaker is made explicit by
writing the updated breaker back). -/
def should_use_tool (m : ToolCircuitBreakerManager) (tool : String) (now : Rat) :
    Bool × ToolCircuitBreakerManager :=
  let (br, m1) := get_breaker m tool
  let (allowed, br') := should_allow_request br now
  (allowed, ⟨PyDict.alistUpd m1.breakers tool br'⟩)

/-- `ToolCircuitBreakerManager.record_tool_success`. -/
def record_tool_success (m : ToolCircuitBreakerManager) (tool : String) :
    ToolCircuitBreakerManager :=
  let (br, m1) := get_breaker m tool
  ⟨PyDict.alistUpd m1.breakers tool (record_success br)⟩

/-- `ToolCircuitBreakerManager.record_tool_failure` at instant `now`:
a failure whose text matches an initialization-error pattern first forces
`failure_threshold := 1` and `recovery_timeout := 60*60` on the tool's
breaker, then the failure is recorded as usual. -/
def record_tool_failure (m : ToolCircuitBreakerManager) (tool error : String)
    (now : Rat) : Bool × ToolCircuitBreakerManager :=
  let (br, m1) := get_breaker m tool
  let br := if isInitError error then
      { br with failure_threshold := 1, recovery_timeout := 60 * 60 }
    else br
  let (is_opened, br') := record_failure br now
  (is_opened, ⟨PyDict.alistUpd m1.breakers tool br'⟩)

/-- `ToolCircuitBreakerManager.reset_tool`: replace the stored breaker by
a freshly constructed default one (only when the tool has a breaker). -/
def reset_tool (m : ToolCircuitBreakerManager) (tool : String) :
    ToolCircuitBreakerManager :=
  match PyDict.alistFind m.breakers tool with
  | some _ => ⟨PyDict.alistUpd m.breakers tool ({} : CircuitBreaker)⟩
  | none => m

/-- One manager-level call, for quantifying over call sequences. -/
inductive MgrOp
  | success (tool : String)
  | failure (tool : String) (error : String) (now : Rat)
  | shouldUse (tool : String) (now : Rat)
  | reset (tool : String)
  deriving DecidableEq, Repr

/-- Apply one manager-level call (discarding the returned boolean). -/
def applyMgrOp (m : ToolCircuitBreakerManager) : MgrOp → ToolCircuitBreakerManager
  | MgrOp.success tool => record_tool_success m tool
  | MgrOp.failure tool error now => (record_tool_failure m tool error now).2
  | MgrOp.shouldUse tool now => (should_use_tool m tool now).2
  | MgrOp.reset tool => reset_tool m tool

/-- Apply a sequence of manager-level calls in order. -/
def applyMgrOps (m : ToolCircuitBreakerManager) : List MgrOp → ToolCircuitBreakerManager
  | [] => m
  | op :: ops => applyMgrOps (applyMgrOp m op) ops

end CircuitBreakerModel

namespace ToolRegistryModel

/-- `ToolStatus` enum of `tool_manager.py`. -/
inductive ToolStatus
  | enabled
  | disabled
  | restricted
  | unavailable
  deriving DecidableEq, Repr

/-- `ToolMask` model.  `disabled_at` keeps the `datetime.now()` stamp as a
rational instant. -/
structure ToolMask where
  tool_name : String
  status : ToolStatus := ToolStatus.enabled
  reason : Option String := none
  disabled_at : Option Rat := none
  permissions_required : List String := []
  context_requirements : List (String × String) := []
  deriving DecidableEq, Repr

/-- A registered tool: the registry stores `BaseTool` objects, of which
only `name` and `description` are read by the registry itself. -/
structure BaseTool where
  name : String
  description : String
  deriving DecidableEq, Repr

/-- `ToolRegistry`: `_tools`, `_masks` (dicts keyed by tool name) and the
`_global_tools` set. -/
structure ToolRegistry where
  tools : List (String × BaseTool) := []
  masks : List (String × ToolMask) := []
  global_tools : List String := []
  deriving DecidableEq, Repr

/-- `ToolRegistry.register_tool`: upsert the tool, install a fresh default
mask, and (only) when `is_global` add the name to the global set. -/
def register_tool (reg : ToolRegistry) (tool : BaseTool) (is_global : Bool) :
    ToolRegistry :=
  let tool_name := tool.name
  let reg := { reg with
    tools := PyDict.alistUpd reg.tools tool_name tool
    masks := PyDict.alistUpd reg.masks tool_name { tool_name := tool_name } }
  if is_global then
    { reg with global_tools :=
        if tool_name ∈ reg.global_tools then reg.global_tools
        else reg.global_tools ++ [tool_name] }
  else reg

/-- `ToolRegistry.mask_tool` at instant `now` (`datetime.now()` for the
`disabled_at` stamp): fails on unknown tools and on any attempt to move a
global tool away from `enabled`; otherwise rewrites the mask's status and
reason and stamps or clears `disabled_at`. -/
def mask_tool (reg : ToolRegistry) (tool_name : String) (status : ToolStatus)
    (reason : Option String) (now : Rat) : Bool × ToolRegistry :=
  if (PyDict.alistFind reg.tools tool_name).isNone then
    (false, reg)
  else if tool_name ∈ reg.global_tools ∧ status ≠ ToolStatus.enabled then
    (false, reg)
  else
    match PyDict.alistFind reg.masks tool_name with
    | none => (false, reg)
    | some mask =>
      let mask := { mask with status := status, reason := reason }
      let mask :=
        if status = ToolStatus.disabled ∨ status = ToolStatus.unavailable then
          { mask with disabled_at := some now }
        else
          { mask with disabled_at := none }
      (true, { reg with masks := PyDict.alistUpd reg.masks tool_name mask })

end ToolRegistryModel

namespace MemoryModel

/-- `app.schema.Message` as read by the memory manager: a role plus an
optional content string. -/
structure Message where
  role : String
  content : Option String
  deriving DecidableEq, Repr

/-- `MemoryWindow` model (defaults `window_size=20`,
`summary_threshold=30`). -/
structure MemoryWindow where
  window_size : Nat := 20
  summary_threshold : Nat := 30
  deriving DecidableEq, Repr

/-- `MemorySummary` model; `created_at` keeps the `datetime.now()` stamp
as a rational instant. -/
structure MemorySummary where
  summary : String := ""
  message_count : Nat := 0
  important_facts : List String := []
  created_at : Rat := 0
  deriving DecidableEq, Repr

/-- `EnhancedMemory`: live messages, sliding-window configuration, the at
most one live summary, and the archive of evicted messages. -/
structure EnhancedMemory where
  window : MemoryWindow := {}
  summary : Option MemorySummary := none
  messages : List Message := []
  archived_messages : List Message := []
  deriving DecidableEq, Repr

/-- Python slice `l[:-w]` (for `w = 0` this is `l[:0] = []`). -/
def pyInitSlice {α : Type} (l : List α) (w : Nat) : List α :=
  if w = 0 then [] else l.take (l.length - w)

/-- Python slice `l[-w:]` (for `w = 0` this is `l[0:] = l`). -/
def pyLastSlice {α : Type} (l : List α) (w : Nat) : List α :=
  if w = 0 then l else l.drop (l.length - w)

/-- One comprehension element of
`"\n".join(f"{msg.role}: {msg.content}" for msg in ... if msg.content)`:
`none` when the message's content is falsy. -/
def msgLine (m : Message) : Option String :=
  match m.content with
  | some c => if c = "" then none else some (m.role ++ ": " ++ c)
  | none => none

/-- The f-string `summarization_prompt` of `_compress_memory`. -/
def summarizationPrompt (conversation_text : String) : String :=
  "Summarize the following conversation history concisely.\nExtract and list any important facts, decisions, or context that should be remembered.\n\nConversation:\n"
    ++ conversation_text
    ++ "\n\nProvide:\n1. A brief summary (2-3 sentences)\n2. List of important facts or decisions made\n"

/-- The exact prompt `_compress_memory` sends to the summarizer for a
given memory. -/
def promptOf (mem : EnhancedMemory) : String :=
  summarizationPrompt (String.intercalate "\n"
    ((pyInitSlice mem.messages mem.window.window_size).filterMap msgLine))

/-- Outcome of the `self.llm.ask(...)` collaborator call: an exception, or
a returned response object (possibly `None`, possibly with falsy
content). -/
inductive SummarizerOutcome
  | raises
  | returns (resp : Option Message)

/-- The summarization collaborator, as an oracle from the prompt to the
call's outcome. -/
structure SummarizerEnv where
  ask : String → SummarizerOutcome

/-- Python truthiness of `summary_response and summary_response.content`. -/
def truthySummary : SummarizerOutcome → Bool
  | SummarizerOutcome.raises => false
  | SummarizerOutcome.returns none => false
  | SummarizerOutcome.returns (some r) =>
    match r.content with
    | none => false
    | some c => !(c = "")

/-- The content string of a truthy summarizer outcome (`""` otherwise). -/
def summaryContent : SummarizerOutcome → String
  | SummarizerOutcome.raises => ""
  | SummarizerOutcome.returns none => ""
  | SummarizerOutcome.returns (some r) => r.content.getD ""

/-- `len(line) > 2 and line[0].isdigit() and line[1] in '.)'` on the
stripped line's characters. -/
def numberedLine (cs : List Char) : Bool :=
  match cs with
  | c0 :: c1 :: _ :: _ => c0.isDigit && (c1 = '.' || c1 = ')')
  | _ => false

/-- The line filter of `_extract_facts` (applied to the stripped line). -/
def isFactLine (l : String) : Bool :=
  !l.isEmpty && (l.startsWith "-" || l.startsWith "*" || numberedLine l.data)

/-- The character set of `line.lstrip('-*0123456789.) ')`. -/
def lstripSet : List Char := "-*0123456789.) ".data

/-- `EnhancedMemory._extract_facts`: keep stripped bullet/numbered lines,
strip their leading markers, cap at 5. -/
def extract_facts (summary_text : String) : List String :=
  let facts := (summary_text.splitOn "\n").filterMap (fun line =>
    let line := line.trim
    if isFactLine line then
      some (String.mk (line.data.dropWhile (fun c => c ∈ lstripSet)))
    else none)
  facts.take 5

/-- `EnhancedMemory._compress_memory` at instant `now`: archive the
messages older than the window, ask the summarizer, and only on a truthy
response install the new summary and trim the live list to the window.
An exception from the collaborator (or a falsy response) leaves the
archive already extended but the live list untrimmed. -/
def compress_memory (env : SummarizerEnv) (now : Rat) (mem : EnhancedMemory) :
    EnhancedMemory :=
  let messages_to_summarize := pyInitSlice mem.messages mem.window.window_size
  if messages_to_summarize.isEmpty then mem
  else
    let mem1 := { mem with
      archived_messages := mem.archived_messages ++ messages_to_summarize }
    let outcome := env.ask (promptOf mem)
    if truthySummary outcome then
      let c := summaryContent outcome
      { mem1 with
        summary := some { summary := c
                        , message_count := messages_to_summarize.length
                        , important_facts := extract_facts c
                        , created_at := now }
        messages := pyLastSlice mem1.messages mem.window.window_size }
    else mem1

end MemoryModel

namespace OrchestratorModel

/-- `EventType` of `core.protocols`, as used by the orchestrator and
listed in the specification's data model. -/
inductive EventType
  | thinking
  | plan
  | tool_call
  | tool_result
  | answer
  | source
  | done
  | error
  deriving DecidableEq, Repr

/-- A dict value in a task's `parameters`: the planner produces strings
(`"query"`) and lists of strings (`"queries"`). -/
inductive PVal
  | s (v : String)
  | list (v : List String)
  deriving DecidableEq, Repr

/-- A `Task` dict inside a plan: `{id, tool, parameters, description}`. -/
structure Task where
  id : String
  tool : String
  parameters : List (String × PVal) := []
  description : String := ""
  deriving DecidableEq, Repr

/-- A `Plan` dict: `{analysis, tasks, execution_order}`; a missing
`execution_order` key defaults to `[t["id"] for t in tasks]` in
`_handle_plan`. -/
structure Plan where
  analysis : String := ""
  tasks : List Task := []
  execution_order : Option (List String) := none
  deriving DecidableEq, Repr

/-- A source citation dict, read through `src.get("file_name", "")` and
`src.get("page_label", "")`. -/
structure Source where
  file_name : String := ""
  page_label : String := ""
  deriving DecidableEq, Repr

/-- One entry of a result's `"results"` list (`{"text": ...}`). -/
structure RagHit where
  text : Option String := none
  deriving DecidableEq, Repr

/-- A task result as inspected by the orchestrator: a dict with optional
`results`, `sources` and `error` keys, or a non-dict value. -/
inductive TResult
  | dict (results : Option (List RagHit)) (sources : Option (List Source))
      (error : Option String)
  | nonDict
  deriving DecidableEq, Repr

/-- The `{"error": "Task timeout"}` placeholder returned by
`_wait_for_task_result` on timeout. -/
def timeoutPlaceholder : TResult := TResult.dict none none (some "Task timeout")

/-- `{"id", "tool", "description"}` rows of the planning event. -/
structure TaskDesc where
  id : String
  tool : String
  description : String
  deriving DecidableEq, Repr

/-- Event payload data, covering the `data` dicts the orchestrator
attaches (`str(result)[:200]` previews and timestamps are not modelled;
no claim reads them). -/
inductive EventData
  | callData (arguments : List (String × PVal)) (queries : List String)
      (description : String)
  | resultData (results_count : Nat)
  | planningData (summary : String) (queries : List String)
      (tasks : List TaskDesc)
  | generatingData (context_count : Nat) (source_count : Nat)
  | sourcesData (sources : List Source)
  deriving DecidableEq, Repr

/-- An `Event` record (`core.protocols.Event` as the spec's data model
lists it); `timestamp` is not modelled. -/
structure Event where
  type : EventType
  content : String
  data : Option EventData := none
  source : String := "orchestrator"
  correlation_id : String
  deriving DecidableEq, Repr

/-- An intent dict `{id, content, type, context}` (its `type` key is
never read by the orchestrator). -/
structure Intent where
  id : String := ""
  content : String := ""
  context : List (String × String) := []
  deriving DecidableEq, Repr

/-- One entry of `self.active_intents`: the dict
`{"intent", "status", "started_at"}` plus the `"plan"` key added by
`_handle_plan`. -/
structure ActiveIntent where
  intent : Intent
  status : String
  started_at : Rat
  plan : Option Plan := none
  deriving DecidableEq, Repr

/-- The orchestrator's mutable state: `active_intents`, `task_results`
and the per-correlation response queues (`_response_callbacks`, each
queue modelled as the list of events put on it, in order). -/
structure OrchState where
  active_intents : List (String × ActiveIntent) := []
  task_results : List (String × TResult) := []
  response_callbacks : List (String × List Event) := []
  deriving DecidableEq, Repr

/-- Outcome of the final-answer generation collaborator: missing API key,
a completion, or an exception raised by the call. -/
inductive AnswerOutcome
  | noKey
  | ok (answer : String)
  | exn (msg : String)
  deriving DecidableEq, Repr

/-- The orchestrator's environment (collaborators and the clock):
`arrival tid = some (d, r)` means the executor's result for task `tid`
reaches `task_results` after `d` seconds (so `_wait_for_task_result`
sees it only when `d` is below its timeout); `none` means it never
arrives.  `answer q ctx` is the final-answer LLM call on the user
question and joined context; `plannerPlan` is the planner's reply
(`none`: the planner never responds). -/
structure OrchEnv where
  now : Rat
  arrival : String → Option (Rat × TResult)
  answer : String → String → AnswerOutcome
  plannerPlan : Option Plan := none

/-- One observable step of `_handle_plan`, used to state ordering
properties: an event put on the correlation's queue, a task dispatched
to the executor (`tell(self.executor, execute_task)`), or a task result
obtained by `_wait_for_task_result`. -/
inductive Action
  | emit (e : Event)
  | dispatch (task : Task)
  | obtain (task_id : String) (result : TResult)
  deriving DecidableEq, Repr

/-- `_emit_event` and the bespoke emitters: put the event on the
correlation's queue when one is registered, else drop it. -/
def emitEvent (st : OrchState) (e : Event) : OrchState :=
  match PyDict.alistFind st.response_callbacks e.correlation_id with
  | some q =>
    { st with response_callbacks :=
        PyDict.alistUpd st.response_callbacks e.correlation_id (q ++ [e]) }
  | none => st

/-- The `tool_call` event's `queries` data field:
`params.get("queries", [params.get("query")] if params.get("query") else [])`
(dict values being strings or string lists in this model). -/
def callQueries (params : List (String × PVal)) : List String :=
  match PyDict.alistFind params "queries" with
  | some (PVal.list l) => l
  | some (PVal.s v) => [v]
  | none =>
    match PyDict.alistFind params "query" with
    | some (PVal.s q) => if q = "" then [] else [q]
    | some (PVal.list l) => if l.isEmpty then [] else l
    | none => []

/-- The `all_queries` accumulation of `_handle_plan`: `queries` extended
when present, else `query` appended when present. -/
def collectQueries (tasks : List Task) : List String :=
  tasks.flatMap (fun t =>
    match PyDict.alistFind t.parameters "queries" with
    | some (PVal.list l) => l
    | some (PVal.s v) => [v]
    | none =>
      match PyDict.alistFind t.parameters "query" with
      | some (PVal.s q) => [q]
      | some (PVal.list l) => l
      | none => [])

/-- One `task_descriptions` row (planner tasks always carry their
`description` key in this model). -/
def taskDescOf (t : Task) : TaskDesc :=
  { id := t.id, tool := t.tool, description := t.description }

/-- `task_map = {t["id"]: t for t in tasks}` lookup: in a Python dict
comprehension the last task with a given id wins. -/
def taskMapFind (tasks : List Task) (tid : String) : Option Task :=
  tasks.reverse.find? (fun t => t.id == tid)

/-- The `plan.get("execution_order", [t["id"] for t in tasks])` line of
`_handle_plan`. -/
def executionOrderOf (plan : Plan) : List String :=
  plan.execution_order.getD (plan.tasks.map (fun t => t.id))

/-- `len(result.get('results', []))` when the result is a dict, else 0. -/
def resultsCount (r : TResult) : Nat :=
  match r with
  | TResult.dict results _ _ => (results.getD []).length
  | TResult.nonDict => 0

/-- The `thinking` events emitted through `_emit_event`. -/
def thinkingEvent (cid content : String) : Event :=
  { type := EventType.thinking, content := content, correlation_id := cid }

/-- The per-task `tool_call` event of `_handle_plan`. -/
def toolCallEvent (cid : String) (task : Task) : Event :=
  { type := EventType.tool_call
  , content := task.tool
  , data := some (EventData.callData task.parameters (callQueries task.parameters)
      task.description)
  , correlation_id := cid }

/-- The per-task `tool_result` event of `_handle_plan`. -/
def toolResultEvent (cid : String) (result : TResult) : Event :=
  { type := EventType.tool_result
  , content := "找到 " ++ toString (resultsCount result) ++ " 個相關結果"
  , data := some (EventData.resultData (resultsCount result))
  , correlation_id := cid }

/-- The planning event built by `_emit_planning_event`. -/
def planningEvent (cid summary : String) (queries : List String)
    (tasks : List TaskDesc) : Event :=
  { type := EventType.plan
  , content := summary
  , data := some (EventData.planningData summary queries tasks)
  , correlation_id := cid }

/-- The generating-progress event built by `_emit_generating_event`
(a `thinking`-typed event with `generating` data). -/
def generatingEvent (cid : String) (context_count source_count : Nat) : Event :=
  { type := EventType.thinking
  , content := "正在根據 " ++ toString context_count ++ " 段內容和 "
      ++ toString source_count ++ " 個來源生成回答..."
  , data := some (EventData.generatingData context_count source_count)
  , correlation_id := cid }

/-- An `answer` event. -/
def answerEvent (cid content : String) : Event :=
  { type := EventType.answer, content := content, correlation_id := cid }

/-- The `source` event listing the top 5 deduplicated citations. -/
def sourceEvent (cid : String) (unique_sources : List Source) : Event :=
  { type := EventType.source
  , content := toString unique_sources.length ++ " 個參考來源"
  , data := some (EventData.sourcesData (unique_sources.take 5))
  , correlation_id := cid }

/-- The terminal `done` event. -/
def doneEvent (cid : String) : Event :=
  { type := EventType.done, content := "", correlation_id := cid }

/-- A synthetic `error` event (emitted by `process_intent` on stream
timeout). -/
def errorEvent (cid content : String) : Event :=
  { type := EventType.error, content := content, correlation_id := cid }

/-- The `timeout: float = 30.0` of `_wait_for_task_result`. -/
def waitTimeoutSeconds : Rat := 30

/-- `_wait_for_task_result`: polls `task_results` for up to 30 seconds,
popping and returning the result when it appears, else returning the
`{"error": "Task timeout"}` placeholder.  The executor's asynchronous
reply is the `arrival` oracle: the result is seen exactly when it
arrives in under `waitTimeoutSeconds`. -/
def wait_for_task_result (env : OrchEnv) (task_id : String) : TResult :=
  match env.arrival task_id with
  | some (delay, r) => if delay < waitTimeoutSeconds then r else timeoutPlaceholder
  | none => timeoutPlaceholder

/-- The task loop of `_handle_plan` over `execution_order`: skip unknown
ids; otherwise emit `tool_call`, dispatch to the executor, block on the
result, emit `tool_result`, and store the result for later tasks. -/
def execLoop (env : OrchEnv) (cid : String) (tasks : List Task) :
    OrchState → List String → OrchState × List Action
  | st, [] => (st, [])
  | st, task_id :: rest =>
    match taskMapFind tasks task_id with
    | none => execLoop env cid tasks st rest
    | some task =>
      let callEv := toolCallEvent cid task
      let st1 := emitEvent st callEv
      let result := wait_for_task_result env task_id
      let resEv := toolResultEvent cid result
      let st2 := emitEvent st1 resEv
      let st3 := { st2 with
        task_results := PyDict.alistUpd st2.task_results task_id result }
      let r := execLoop env cid tasks st3 rest
      (r.1,
        Action.emit callEv :: Action.dispatch task :: Action.obtain task_id result
          :: Action.emit resEv :: r.2)

/-- Text extraction from one task result in `_generate_final_answer`:
the `"text"` fields of the result's `"results"` entries, keeping only
texts longer than 20 characters. -/
def extractTexts (r : TResult) : List String :=
  match r with
  | TResult.dict (some results) _ _ =>
    results.filterMap (fun h =>
      match h.text with
      | some t => if 20 < t.length then some t else none
      | none => none)
  | _ => []

/-- Source collection from one task result (`result["sources"]` when
present). -/
def extractSources (r : TResult) : List Source :=
  match r with
  | TResult.dict _ (some s) _ => s
  | _ => []

/-- The context/source gathering loop of `_generate_final_answer`: walk
`plan.tasks` in order and use each task whose id has a stored result. -/
def gatherContext (st : OrchState) (plan : Plan) : List String × List Source :=
  plan.tasks.foldl (fun acc t =>
    match PyDict.alistFind st.task_results t.id with
    | some r => (acc.1 ++ extractTexts r, acc.2 ++ extractSources r)
    | none => acc) ([], [])

/-- Source deduplication by `(file_name, page_label)` key, keeping first
occurrences in order. -/
def dedupSources (sources : List Source) : List Source :=
  (sources.foldl (fun acc src =>
    if (src.file_name, src.page_label) ∈ acc.2 then acc
    else (acc.1 ++ [src], (src.file_name, src.page_label) :: acc.2))
    (([], []) : List Source × List (String × String))).1

/-- The `try/except` block of `_generate_final_answer`: a missing API
key or a caught exception each emits an error-text `answer` event; a
completion emits the `answer` event and, when there are deduplicated
sources, the `source` event. -/
def answerStep (env : OrchEnv) (st : OrchState) (cid : String)
    (question context_text : String) (unique_sources : List Source) :
    OrchState × List Event :=
  match env.answer question context_text with
  | AnswerOutcome.noKey =>
    let e := answerEvent cid "無法生成回答：API Key 未設置"
    (emitEvent st e, [e])
  | AnswerOutcome.ok ans =>
    let e := answerEvent cid ans
    let st := emitEvent st e
    if unique_sources.isEmpty then (st, [e])
    else
      let se := sourceEvent cid unique_sources
      (emitEvent st se, [e, se])
  | AnswerOutcome.exn msg =>
    let e := answerEvent cid ("處理完成，但生成回答時發生錯誤: " ++ msg)
    (emitEvent st e, [e])

/-- `_generate_final_answer`: gather context and deduplicated sources
from the stored task results, emit the generating-progress event, run
the answer collaborator (missing key, success, or caught exception each
yielding an `answer` event, success with sources also a `source` event),
emit the terminal `done` event, and pop the correlation's
`active_intents` entry. -/
def generate_final_answer (env : OrchEnv) (st : OrchState) (cid : String) :
    OrchState × List Action :=
  let intent := ((PyDict.alistFind st.active_intents cid).map
    (fun ai => ai.intent)).getD {}
  let plan := ((PyDict.alistFind st.active_intents cid).bind
    (fun ai => ai.plan)).getD {}
  let gc := gatherContext st plan
  let context_texts := gc.1
  let unique_sources := dedupSources gc.2
  let genEv := generatingEvent cid context_texts.length unique_sources.length
  let st1 := emitEvent st genEv
  let context_text := String.intercalate "\n\n---\n\n" (context_texts.take 15)
  let step := answerStep env st1 cid intent.content context_text unique_sources
  let doneEv := doneEvent cid
  let st2 := emitEvent step.1 doneEv
  let st3 := { st2 with active_intents := PyDict.alistPop st2.active_intents cid }
  (st3, Action.emit genEv :: step.2.map Action.emit ++ [Action.emit doneEv])

/-- `_generate_response` (the no-task path): emit an `answer` event with
the plan's analysis and a terminal `done` event; neither map is touched. -/
def generate_response (st : OrchState) (content : String) (cid : String) :
    OrchState × List Action :=
  let e1 := answerEvent cid content
  let st := emitEvent st e1
  let e2 := doneEvent cid
  let st := emitEvent st e2
  (st, [Action.emit e1, Action.emit e2])

/-- The `if correlation_id in self.active_intents` block at the top of
`_handle_plan`: mark the correlation `executing` and remember the plan. -/
def markExecuting (st : OrchState) (plan : Plan) (cid : String) : OrchState :=
  match PyDict.alistFind st.active_intents cid with
  | some ai =>
    let ai' := { ai with status := "executing", plan := some plan }
    { st with active_intents := PyDict.alistUpd st.active_intents cid ai' }
  | none => st

/-- The planning event of `_handle_plan` for a given plan. -/
def planSummaryEvent (plan : Plan) (cid : String) : Event :=
  planningEvent cid ("將執行 " ++ toString plan.tasks.length ++ " 個任務來回答問題")
    (collectQueries plan.tasks) (plan.tasks.map taskDescOf)

/-- State effect of the `if analysis:` thinking emission of
`_handle_plan`. -/
def preAnalysisState (st : OrchState) (plan : Plan) (cid : String) : OrchState :=
  if plan.analysis = "" then st
  else emitEvent st (thinkingEvent cid plan.analysis)

/-- Trace of the `if analysis:` thinking emission of `_handle_plan`. -/
def preAnalysisTrace (plan : Plan) (cid : String) : List Action :=
  if plan.analysis = "" then []
  else [Action.emit (thinkingEvent cid plan.analysis)]

/-- The non-empty-task path of `_handle_plan`: emit the analysis
`thinking` event (when the analysis is non-empty) and the planning
event, run the tasks of `execution_order` sequentially, and generate the
final answer. -/
def handle_plan_exec (env : OrchEnv) (st : OrchState) (plan : Plan) (cid : String) :
    OrchState × List Action :=
  let stp := emitEvent (preAnalysisState st plan cid) (planSummaryEvent plan cid)
  let lp := execLoop env cid plan.tasks stp (executionOrderOf plan)
  let fin := generate_final_answer env lp.1 cid
  (fin.1,
    preAnalysisTrace plan cid ++ Action.emit (planSummaryEvent plan cid) :: lp.2 ++ fin.2)

/-- `_handle_plan`: mark the correlation `executing` and remember the
plan; with no tasks fall through to `_generate_response`; otherwise run
the tasks and produce the final answer. -/
def handle_plan (env : OrchEnv) (st : OrchState) (plan : Plan) (cid : String) :
    OrchState × List Action :=
  let st1 := markExecuting st plan cid
  if plan.tasks.isEmpty then
    generate_response st1 plan.analysis cid
  else
    handle_plan_exec env st1 plan cid

/-- `_handle_intent`: record the active intent (status `planning`,
stamped with the clock), emit the initial `thinking` event, and hand the
intent to the planner (whose asynchronous reply is `env.plannerPlan`). -/
def handle_intent (env : OrchEnv) (st : OrchState) (intent : Intent)
    (cid : String) : OrchState × List Action :=
  let ai : ActiveIntent := { intent := intent, status := "planning", started_at := env.now }
  let st := { st with active_intents := PyDict.alistUpd st.active_intents cid ai }
  let e := thinkingEvent cid "分析問題並規劃任務..."
  (emitEvent st e, [Action.emit e])

/-- `process_intent`, with the asynchronous pipeline collapsed to its two
stream outcomes: register a fresh queue for the correlation id, run
`_handle_intent`; when the planner replies, `_handle_plan` runs to its
terminal event and the stream yields the whole queue; when the planner
never responds, the 60-second idle wait expires and the stream yields
what was queued plus a synthetic `Processing timeout` error event.
Either way the `finally` block pops only the response queue. -/
def process_intent (env : OrchEnv) (st : OrchState) (intent : Intent) :
    List Event × OrchState :=
  let cid := intent.id
  let st0 := { st with response_callbacks := PyDict.alistUpd st.response_callbacks cid [] }
  let st1 := (handle_intent env st0 intent cid).1
  match env.plannerPlan with
  | some plan =>
    let st2 := (handle_plan env st1 plan cid).1
    let yielded := (PyDict.alistFind st2.response_callbacks cid).getD []
    (yielded,
      { st2 with response_callbacks := PyDict.alistPop st2.response_callbacks cid })
  | none =>
    let yielded := (PyDict.alistFind st1.response_callbacks cid).getD []
    (yielded ++ [errorEvent cid "Processing timeout"],
      { st1 with response_callbacks := PyDict.alistPop st1.response_callbacks cid })

end OrchestratorModel

/-! ### Lemmas about the Python-dict model -/

namespace PyDict

theorem alistFind_upd_self {α : Type} (l : List (String × α)) (k : String) (v : α) :
    alistFind (alistUpd l k v) k = some v := by
  induction l with
  | nil => simp [alistUpd, alistFind]
  | cons p rest ih =>
    obtain ⟨k', v'⟩ := p
    by_cases h : k' = k
    · simp [alistUpd, alistFind, h]
    · simp [alistUpd, alistFind, h, ih]

theorem alistFind_upd_ne {α : Type} (l : List (String × α)) (k k' : String) (v : α)
    (h : k' ≠ k) : alistFind (alistUpd l k' v) k = alistFind l k := by
  induction l with
  | nil => simp [alistUpd, alistFind, h]
  | cons p rest ih =>
    obtain ⟨k'', v''⟩ := p
    by_cases h2 : k'' = k'
    · subst h2
      simp [alistUpd, alistFind, h]
    · by_cases h3 : k'' = k
      · simp [alistUpd, alistFind, h2, h3, Ne.symm h]
      · simp [alistUpd, alistFind, h2, h3, ih]

theorem alistFind_pop_self {α : Type} (l : List (String × α)) (k : String) :
    alistFind (alistPop l k) k = none := by
  induction l with
  | nil => simp [alistPop, alistFind]
  | cons p rest ih =>
    obtain ⟨k', v'⟩ := p
    by_cases h : k' = k
    · simp [alistPop, h, ih]
    · simp [alistPop, alistFind, h, ih]

theorem alistFind_append_single_ne {α : Type} (l : List (String × α)) (k k' : String)
    (v : α) (h : k' ≠ k) : alistFind (l ++ [(k', v)]) k = alistFind l k := by
  induction l with
  | nil => simp [alistFind, h]
  | cons p rest ih =>
    obtain ⟨k'', v''⟩ := p
    by_cases h2 : k'' = k
    · simp [alistFind, h2]
    · simp [alistFind, h2, ih]

end PyDict

/-! ### Circuit breaker lemmas -/

namespace CircuitBreakerModel

theorem record_failure_no_trip (cb : CircuitBreaker) (t : Rat)
    (hc : cb.failure_count + 1 < cb.failure_threshold)
    (hs : cb.state ≠ CircuitState.half_open) :
    record_failure cb t
      = (false, { cb with consecutive_successes := 0,
                          failure_count := cb.failure_count + 1,
                          last_failure_time := some t }) := by
  simp [record_failure, Nat.not_le.mpr hc, hs]

theorem record_failure_trip (cb : CircuitBreaker) (t : Rat)
    (hc : cb.failure_threshold ≤ cb.failure_count + 1) :
    record_failure cb t
      = (true, { cb with consecutive_successes := 0,
                         failure_count := cb.failure_count + 1,
                         last_failure_time := some t,
                         state := CircuitState.«open» }) := by
  simp [record_failure, hc]

theorem record_failure_half_open_trips (cb : CircuitBreaker) (t : Rat)
    (hs : cb.state = CircuitState.half_open) :
    (record_failure cb t).1 = true
      ∧ ((record_failure cb t).2).state = CircuitState.«open» := by
  rcases le_or_lt cb.failure_threshold (cb.failure_count + 1) with h | h
  · simp [record_failure, h]
  · simp [record_failure, Nat.not_le.mpr h, hs]

theorem recordFailures_closed (ts : List Rat) : ∀ cb : CircuitBreaker,
    cb.state = CircuitState.closed →
    cb.failure_count + ts.length < cb.failure_threshold →
    (recordFailures cb ts).1 = List.replicate ts.length false ∧
    ((recordFailures cb ts).2).state = CircuitState.closed ∧
    ((recordFailures cb ts).2).failure_count = cb.failure_count + ts.length ∧
    ((recordFailures cb ts).2).failure_threshold = cb.failure_threshold ∧
    ((recordFailures cb ts).2).recovery_timeout = cb.recovery_timeout ∧
    ((recordFailures cb ts).2).half_open_max_calls = cb.half_open_max_calls := by
  induction ts with
  | nil =>
    intro cb h1 h2
    simp [recordFailures, h1]
  | cons t rest ih =>
    intro cb h1 h2
    have hnt : cb.failure_count + 1 < cb.failure_threshold := by
      simp only [List.length_cons] at h2
      omega
    have hstep := record_failure_no_trip cb t hnt (by simp [h1])
    have ihc := ih { cb with consecutive_successes := 0,
                             failure_count := cb.failure_count + 1,
                             last_failure_time := some t }
      (by simpa using h1)
      (by simp only [List.length_cons] at h2; simpa using (by omega :
            cb.failure_count + 1 + rest.length < cb.failure_threshold))
    simp only [recordFailures, hstep]
    refine ⟨?_, ?_, ?_, ?_, ?_, ?_⟩
    · simp [ihc.1, List.replicate_succ]
    · exact ihc.2.1
    · simpa [Nat.add_right_comm] using ihc.2.2.1
    · exact ihc.2.2.2.1
    · exact ihc.2.2.2.2.1
    · exact ihc.2.2.2.2.2

theorem sar_open_denied (cb : CircuitBreaker) (t0 now : Rat)
    (hs : cb.state = CircuitState.«open») (hl : cb.last_failure_time = some t0)
    (hle : now - t0 ≤ cb.recovery_timeout) :
    should_allow_request cb now = (false, cb) := by
  simp [should_allow_request, hs, hl, not_lt.mpr hle]

theorem allowRequests_open_denied (nows : List Rat) (cb : CircuitBreaker) (t0 : Rat)
    (hs : cb.state = CircuitState.«open») (hl : cb.last_failure_time = some t0)
    (hle : ∀ n ∈ nows, n - t0 ≤ cb.recovery_timeout) :
    (allowRequests cb nows).1 = List.replicate nows.length false ∧
    (allowRequests cb nows).2 = cb := by
  induction nows with
  | nil => simp [allowRequests]
  | cons now rest ih =>
    have hstep := sar_open_denied cb t0 now hs hl (hle now (by simp))
    have ihc := ih (fun n hn => hle n (by simp [hn]))
    simp only [allowRequests, hstep]
    simp [ihc.1, ihc.2, List.replicate_succ]

theorem sar_open_transition (cb : CircuitBreaker) (t0 now : Rat)
    (hs : cb.state = CircuitState.«open») (hl : cb.last_failure_time = some t0)
    (ht : t0 ≠ 0) (helapsed : cb.recovery_timeout < now - t0) :
    should_allow_request cb now
      = (true, { cb with state := CircuitState.half_open, half_open_calls := 0 }) := by
  simp [should_allow_request, hs, hl, ht, helapsed]

theorem range_map_sat (n hoc mx : Nat) (h : mx ≤ hoc) :
    (List.range n).map (fun i => decide (hoc + i < mx)) = List.replicate n false := by
  induction n with
  | zero => simp
  | succ n ih =>
    rw [List.range_succ, List.map_append, ih, List.replicate_succ']
    simp [decide_eq_false (by omega : ¬(hoc + n < mx))]

theorem allowRequests_half_open (nows : List Rat) : ∀ cb : CircuitBreaker,
    cb.state = CircuitState.half_open →
    (allowRequests cb nows).1
      = (List.range nows.length).map
          (fun i => decide (cb.half_open_calls + i < cb.half_open_max_calls)) := by
  induction nows with
  | nil => intro cb _; simp [allowRequests]
  | cons now rest ih =>
    intro cb hs
    rw [List.length_cons, List.range_succ_eq_map, List.map_cons, List.map_map]
    by_cases hlt : cb.half_open_calls < cb.half_open_max_calls
    · have hstep : should_allow_request cb now
          = (true, { cb with half_open_calls := cb.half_open_calls + 1 }) := by
        simp [should_allow_request, hs, hlt]
      have ihc := ih { cb with half_open_calls := cb.half_open_calls + 1 } (by simpa using hs)
      simp only [allowRequests, hstep]
      rw [ihc]
      refine congrArg₂ _ (by simp [decide_eq_true hlt]) ?_
      refine List.map_congr_left (fun i _ => ?_)
      have harith : cb.half_open_calls + 1 + i = cb.half_open_calls + (i + 1) := by omega
      simp [Function.comp, Nat.succ_eq_add_one, harith]
    · have hstep : should_allow_request cb now = (false, cb) := by
        simp [should_allow_request, hs, hlt]
      have ihc := ih cb hs
      simp only [allowRequests, hstep]
      rw [ihc]
      have hsat := range_map_sat rest.length cb.half_open_calls cb.half_open_max_calls
        (by omega)
      rw [hsat]
      have hsat2 : (List.range rest.length).map
          ((fun i => decide (cb.half_open_calls + i < cb.half_open_max_calls)) ∘ Nat.succ)
            = List.replicate rest.length false := by
        have := range_map_sat rest.length (cb.half_open_calls + 1) cb.half_open_max_calls
          (by omega)
        rw [← this]
        refine List.map_congr_left (fun i _ => ?_)
        have harith : cb.half_open_calls + 1 + i = cb.half_open_calls + (i + 1) := by omega
        simp [Function.comp, Nat.succ_eq_add_one, harith]
      rw [hsat2]
      simp
      omega

end CircuitBreakerModel

namespace CircuitBreakerModel

/-- C2: starting from a fresh closed breaker, every sequence of fewer than
`failure_threshold` `record_failure` calls returns `false` each time and
leaves the state `closed`; the call that brings `failure_count` to the
threshold returns `true` and opens the breaker, and thereafter every
`should_allow_request` call at an instant no more than `recovery_timeout`
seconds past the last failure returns `false`. -/
theorem C2_threshold_trip (th : Nat) (rt : Rat) (mx : Nat) :
    (∀ ts : List Rat, ts.length < th →
      (recordFailures (freshBreaker th rt mx) ts).1 = List.replicate ts.length false ∧
      ((recordFailures (freshBreaker th rt mx) ts).2).state = CircuitState.closed) ∧
    (∀ (ts : List Rat) (t : Rat), ts.length + 1 = th →
      (record_failure ((recordFailures (freshBreaker th rt mx) ts).2) t).1 = true ∧
      ((record_failure ((recordFailures (freshBreaker th rt mx) ts).2) t).2).state
        = CircuitState.«open» ∧
      (∀ nows : List Rat, (∀ n ∈ nows, n - t ≤ rt) →
        (allowRequests ((record_failure ((recordFailures (freshBreaker th rt mx) ts).2) t).2)
          nows).1 = List.replicate nows.length false)) := by
  constructor
  · intro ts hts
    have h := recordFailures_closed ts (freshBreaker th rt mx) rfl
      (by simpa [freshBreaker] using hts)
    exact ⟨h.1, h.2.1⟩
  · intro ts t hlen
    have h := recordFailures_closed ts (freshBreaker th rt mx) rfl
      (by simp [freshBreaker]; omega)
    have htrip := record_failure_trip ((recordFailures (freshBreaker th rt mx) ts).2) t
      (by rw [h.2.2.2.1, h.2.2.1]; simp [freshBreaker]; omega)
    refine ⟨by rw [htrip], by rw [htrip], ?_⟩
    intro nows hno
    have hrt : ((record_failure ((recordFailures (freshBreaker th rt mx) ts).2) t).2).recovery_timeout = rt := by
      rw [htrip]
      simpa [freshBreaker] using h.2.2.2.2.1
    have hdenied := allowRequests_open_denied nows
      ((record_failure ((recordFailures (freshBreaker th rt mx) ts).2) t).2) t
      (by rw [htrip]) (by rw [htrip])
      (by intro n hn; rw [hrt]; exact hno n hn)
    exact hdenied.1

/-- C2 witness: three failures with threshold 3 — the first two return
false, the third trips, and requests within the 1800-second window stay
blocked. -/
theorem C2_threshold_trip_witness :
    (recordFailures (freshBreaker 3 1800 1) [5, 6]).1 = List.replicate 2 false ∧
    (record_failure ((recordFailures (freshBreaker 3 1800 1) [5, 6]).2) 7).1 = true ∧
    (allowRequests ((record_failure ((recordFailures (freshBreaker 3 1800 1) [5, 6]).2) 7).2)
      [100, 1807]).1 = List.replicate 2 false := by
  have h := C2_threshold_trip 3 1800 1
  exact ⟨(h.1 [5, 6] (by decide)).1, (h.2 [5, 6] 7 (by decide)).1,
    (h.2 [5, 6] 7 (by decide)).2.2 [100, 1807] (by norm_num)⟩

/-- C3 counterexample: with the default `half_open_max_calls = 1`, once
the breaker has tripped (failures at instants 1, 2, 3) and the recovery
timeout has elapsed, the transitioning `should_allow_request` call at
instant 2000 returns true AND the immediately following call also
returns true — two calls return true from the transition onward, with no
`record_success`/`record_failure` in between, where the claim allows
exactly `half_open_max_calls = 1`. -/
theorem C3_counterexample :
    ((recordFailures (freshBreaker 3 1800 1) [1, 2, 3]).2).state = CircuitState.«open» ∧
    ((recordFailures (freshBreaker 3 1800 1) [1, 2, 3]).2).half_open_max_calls = 1 ∧
    (allowRequests ((recordFailures (freshBreaker 3 1800 1) [1, 2, 3]).2) [2000, 2000]).1
      = [true, true] := by
  refine ⟨rfl, rfl, ?_⟩
  have htr := sar_open_transition ((recordFailures (freshBreaker 3 1800 1) [1, 2, 3]).2)
    3 2000 rfl rfl (by norm_num)
    (by show (1800 : Rat) < 2000 - 3; norm_num)
  have hh := allowRequests_half_open [2000]
    ((should_allow_request ((recordFailures (freshBreaker 3 1800 1) [1, 2, 3]).2) 2000).2)
    (by rw [htr])
  simp only [allowRequests, htr] at hh ⊢
  rw [hh]
  decide

/-- C3 amended: in `open` state with a truthy `last_failure_time`, once
more than `recovery_timeout` seconds have elapsed, the next
`should_allow_request` call transitions to `half_open` and returns true
WITHOUT consuming the probe budget (`half_open_calls` is reset to 0);
after that transition exactly `half_open_max_calls` further calls return
true (the i-th further call returns true iff `i < half_open_max_calls`)
until `record_success` or `record_failure` intervenes; and any
`record_failure` in `half_open` state returns true and re-opens the
breaker regardless of the failure count. -/
theorem C3_half_open_probes (cb : CircuitBreaker) (t now0 : Rat)
    (hs : cb.state = CircuitState.«open») (hl : cb.last_failure_time = some t)
    (ht : t ≠ 0) (helapsed : cb.recovery_timeout < now0 - t) :
    (should_allow_request cb now0).1 = true ∧
    ((should_allow_request cb now0).2).state = CircuitState.half_open ∧
    ((should_allow_request cb now0).2).half_open_calls = 0 ∧
    (∀ nows : List Rat,
      (allowRequests ((should_allow_request cb now0).2) nows).1
        = (List.range nows.length).map (fun i => decide (i < cb.half_open_max_calls))) ∧
    (∀ (cb' : CircuitBreaker) (now' : Rat), cb'.state = CircuitState.half_open →
      (record_failure cb' now').1 = true ∧
      ((record_failure cb' now').2).state = CircuitState.«open») := by
  have htr := sar_open_transition cb t now0 hs hl ht helapsed
  refine ⟨by rw [htr], by rw [htr], by rw [htr], ?_, ?_⟩
  · intro nows
    have hh := allowRequests_half_open nows ((should_allow_request cb now0).2) (by rw [htr])
    rw [hh, htr]
    simp
  · intro cb' now' hsh
    exact record_failure_half_open_trips cb' now' hsh

/-- C3 amended witness: a tripped breaker (failure at instant 3, defaults
threshold 3 / timeout 1800 / max one probe) queried at instant 2000:
the transitioning call allows, exactly one further probe allows and the
next is denied, and a half-open failure re-opens. -/
theorem C3_half_open_probes_witness :
    (should_allow_request
      ({ state := CircuitState.«open», last_failure_time := some 3 } : CircuitBreaker)
      2000).1 = true ∧
    (allowRequests ((should_allow_request
      ({ state := CircuitState.«open», last_failure_time := some 3 } : CircuitBreaker)
      2000).2) [10, 11]).1 = [true, false] ∧
    (record_failure ((should_allow_request
      ({ state := CircuitState.«open», last_failure_time := some 3 } : CircuitBreaker)
      2000).2) 12).1 = true := by
  have h := C3_half_open_probes
    ({ state := CircuitState.«open», last_failure_time := some 3 } : CircuitBreaker)
    3 2000 rfl rfl (by norm_num) (by show (30 * 60 : Rat) < 2000 - 3; norm_num)
  refine ⟨h.1, ?_, ?_⟩
  · rw [h.2.2.2.1 [10, 11]]
    decide
  · exact (h.2.2.2.2 _ 12 h.2.1).1

end CircuitBreakerModel

namespace CircuitBreakerModel

theorem record_failure_preserves_config (cb : CircuitBreaker) (t : Rat) :
    ((record_failure cb t).2).failure_threshold = cb.failure_threshold ∧
    ((record_failure cb t).2).recovery_timeout = cb.recovery_timeout := by
  rcases le_or_lt cb.failure_threshold (cb.failure_count + 1) with h | h
  · simp [record_failure, h]
  · rcases eq_or_ne cb.state CircuitState.half_open with hs | hs
    · simp [record_failure, Nat.not_le.mpr h, hs]
    · simp [record_failure, Nat.not_le.mpr h, hs]

theorem record_success_preserves_config (cb : CircuitBreaker) :
    (record_success cb).failure_threshold = cb.failure_threshold ∧
    (record_success cb).recovery_timeout = cb.recovery_timeout := by
  by_cases h1 : cb.state = CircuitState.half_open
  · simp [record_success, h1]
  · by_cases h2 : cb.state = CircuitState.closed
    · simp [record_success, h1, h2]
    · simp [record_success, h1, h2]

theorem sar_preserves_config (cb : CircuitBreaker) (now : Rat) :
    ((should_allow_request cb now).2).failure_threshold = cb.failure_threshold ∧
    ((should_allow_request cb now).2).recovery_timeout = cb.recovery_timeout := by
  cases hstate : cb.state with
  | closed => simp [should_allow_request, hstate]
  | «open» =>
    cases hl : cb.last_failure_time with
    | none => simp [should_allow_request, hstate, hl]
    | some t =>
      by_cases hc : t ≠ 0 ∧ cb.recovery_timeout < now - t
      · simp [should_allow_request, hstate, hl, hc]
      · simp [should_allow_request, hstate, hl, hc]
  | half_open =>
    by_cases hc : cb.half_open_calls < cb.half_open_max_calls
    · simp [should_allow_request, hstate, hc]
    · simp [should_allow_request, hstate, hc]

theorem applyMgrOp_keeps_init_severity (m : ToolCircuitBreakerManager) (tool : String)
    (op : MgrOp) (hop : op ≠ MgrOp.reset tool)
    (h : ∃ br, PyDict.alistFind m.breakers tool = some br ∧
      br.failure_threshold = 1 ∧ br.recovery_timeout = 3600) :
    ∃ br, PyDict.alistFind (applyMgrOp m op).breakers tool = some br ∧
      br.failure_threshold = 1 ∧ br.recovery_timeout = 3600 := by
  obtain ⟨br, hfind, hth, hrt⟩ := h
  cases op with
  | success t =>
    by_cases ht : t = tool
    · subst ht
      refine ⟨record_success br, ?_, ?_, ?_⟩
      · simp [applyMgrOp, record_tool_success, get_breaker, hfind, PyDict.alistFind_upd_self]
      · rw [(record_success_preserves_config br).1, hth]
      · rw [(record_success_preserves_config br).2, hrt]
    · refine ⟨br, ?_, hth, hrt⟩
      cases hft : PyDict.alistFind m.breakers t with
      | some b2 =>
        simp [applyMgrOp, record_tool_success, get_breaker, hft,
          PyDict.alistFind_upd_ne _ _ _ _ ht, hfind]
      | none =>
        simp [applyMgrOp, record_tool_success, get_breaker, hft,
          PyDict.alistFind_upd_ne _ _ _ _ ht,
          PyDict.alistFind_append_single_ne _ _ _ _ ht, hfind]
  | failure t e tnow =>
    by_cases ht : t = tool
    · subst ht
      by_cases hin : isInitError e = true
      · refine ⟨(record_failure { br with failure_threshold := 1, recovery_timeout := 60 * 60 } tnow).2, ?_, ?_, ?_⟩
        · simp [applyMgrOp, record_tool_failure, get_breaker, hfind, hin,
            PyDict.alistFind_upd_self]
        · rw [(record_failure_preserves_config _ tnow).1]
        · rw [(record_failure_preserves_config _ tnow).2]; norm_num
      · refine ⟨(record_failure br tnow).2, ?_, ?_, ?_⟩
        · simp [applyMgrOp, record_tool_failure, get_breaker, hfind, hin,
            PyDict.alistFind_upd_self]
        · rw [(record_failure_preserves_config _ tnow).1, hth]
        · rw [(record_failure_preserves_config _ tnow).2, hrt]
    · refine ⟨br, ?_, hth, hrt⟩
      cases hft : PyDict.alistFind m.breakers t with
      | some b2 =>
        by_cases hin : isInitError e = true
        · simp [applyMgrOp, record_tool_failure, get_breaker, hft, hin,
            PyDict.alistFind_upd_ne _ _ _ _ ht, hfind]
        · simp [applyMgrOp, record_tool_failure, get_breaker, hft, hin,
            PyDict.alistFind_upd_ne _ _ _ _ ht, hfind]
      | none =>
        by_cases hin : isInitError e = true
        · simp [applyMgrOp, record_tool_failure, get_breaker, hft, hin,
            PyDict.alistFind_upd_ne _ _ _ _ ht,
            PyDict.alistFind_append_single_ne _ _ _ _ ht, hfind]
        · simp [applyMgrOp, record_tool_failure, get_breaker, hft, hin,
            PyDict.alistFind_upd_ne _ _ _ _ ht,
            PyDict.alistFind_append_single_ne _ _ _ _ ht, hfind]
  | shouldUse t tnow =>
    by_cases ht : t = tool
    · subst ht
      refine ⟨(should_allow_request br tnow).2, ?_, ?_, ?_⟩
      · simp [applyMgrOp, should_use_tool, get_breaker, hfind, PyDict.alistFind_upd_self]
      · rw [(sar_preserves_config br tnow).1, hth]
      · rw [(sar_preserves_config br tnow).2, hrt]
    · refine ⟨br, ?_, hth, hrt⟩
      cases hft : PyDict.alistFind m.breakers t with
      | some b2 =>
        simp [applyMgrOp, should_use_tool, get_breaker, hft,
          PyDict.alistFind_upd_ne _ _ _ _ ht, hfind]
      | none =>
        simp [applyMgrOp, should_use_tool, get_breaker, hft,
          PyDict.alistFind_upd_ne _ _ _ _ ht,
          PyDict.alistFind_append_single_ne _ _ _ _ ht, hfind]
  | reset t =>
    have ht : t ≠ tool := fun hh => hop (by rw [hh])
    refine ⟨br, ?_, hth, hrt⟩
    cases hft : PyDict.alistFind m.breakers t with
    | some b2 =>
      simp [applyMgrOp, reset_tool, hft, PyDict.alistFind_upd_ne _ _ _ _ ht, hfind]
    | none =>
      simp [applyMgrOp, reset_tool, hft, hfind]

theorem applyMgrOps_keeps_init_severity (ops : List MgrOp) :
    ∀ (m : ToolCircuitBreakerManager) (tool : String), MgrOp.reset tool ∉ ops →
    (∃ br, PyDict.alistFind m.breakers tool = some br ∧
      br.failure_threshold = 1 ∧ br.recovery_timeout = 3600) →
    ∃ br, PyDict.alistFind (applyMgrOps m ops).breakers tool = some br ∧
      br.failure_threshold = 1 ∧ br.recovery_timeout = 3600 := by
  induction ops with
  | nil => intro m tool _ h; exact h
  | cons op rest ih =>
    intro m tool hno h
    exact ih (applyMgrOp m op) tool (fun hmem => hno (List.mem_cons_of_mem _ hmem))
      (applyMgrOp_keeps_init_severity m tool op
        (fun he => hno (he ▸ List.mem_cons_self _ _)) h)

/-- C9: once `record_tool_failure` is called for a tool with an error
matching an `INIT_ERROR_PATTERNS` entry, that tool's breaker has
`failure_threshold = 1` and `recovery_timeout = 3600` and keeps them
through any sequence of manager calls that does not `reset_tool` this
tool (successes, non-matching failures, `should_use_tool` probes and
calls about other tools included); `reset_tool` replaces the breaker
with a fresh default one (`failure_threshold = 3`,
`recovery_timeout = 1800`). -/
theorem C9_init_error_severity (m : ToolCircuitBreakerManager) (tool err : String)
    (now : Rat) (hmatch : isInitError err = true) (ops : List MgrOp)
    (hops : MgrOp.reset tool ∉ ops) :
    (∃ br, PyDict.alistFind
        ((applyMgrOps (record_tool_failure m tool err now).2 ops).breakers) tool
      = some br ∧ br.failure_threshold = 1 ∧ br.recovery_timeout = 3600) ∧
    PyDict.alistFind
        ((reset_tool (applyMgrOps (record_tool_failure m tool err now).2 ops) tool).breakers)
        tool = some ({} : CircuitBreaker) ∧
    ({} : CircuitBreaker).failure_threshold = 3 ∧
    ({} : CircuitBreaker).recovery_timeout = 1800 := by
  have hbase : ∃ br, PyDict.alistFind ((record_tool_failure m tool err now).2).breakers tool
      = some br ∧ br.failure_threshold = 1 ∧ br.recovery_timeout = 3600 := by
    cases hf : PyDict.alistFind m.breakers tool with
    | some b0 =>
      refine ⟨(record_failure { b0 with failure_threshold := 1, recovery_timeout := 60 * 60 } now).2, ?_, ?_, ?_⟩
      · simp [record_tool_failure, get_breaker, hf, hmatch, PyDict.alistFind_upd_self]
      · rw [(record_failure_preserves_config _ now).1]
      · rw [(record_failure_preserves_config _ now).2]; norm_num
    | none =>
      refine ⟨(record_failure { ({} : CircuitBreaker) with failure_threshold := 1, recovery_timeout := 60 * 60 } now).2, ?_, ?_, ?_⟩
      · simp [record_tool_failure, get_breaker, hf, hmatch, PyDict.alistFind_upd_self]
      · rw [(record_failure_preserves_config _ now).1]
      · rw [(record_failure_preserves_config _ now).2]; norm_num
  have hinv := applyMgrOps_keeps_init_severity ops _ tool hops hbase
  refine ⟨hinv, ?_, rfl, by norm_num⟩
  obtain ⟨br, hffind, _, _⟩ := hinv
  simp [reset_tool, hffind, PyDict.alistFind_upd_self]

/-- C9 witness: a fresh manager, an initialization-error failure for
`browser` at instant 5, followed by a success and an ordinary failure;
the severity settings persist, and resetting restores the defaults. -/
theorem C9_init_error_severity_witness :
    (∃ br, PyDict.alistFind
        ((applyMgrOps (record_tool_failure ⟨[]⟩ "browser" "Playwright not installed" 5).2
          [MgrOp.success "browser", MgrOp.failure "browser" "boom" 9]).breakers) "browser"
      = some br ∧ br.failure_threshold = 1 ∧ br.recovery_timeout = 3600) ∧
    PyDict.alistFind
        ((reset_tool (applyMgrOps
            (record_tool_failure ⟨[]⟩ "browser" "Playwright not installed" 5).2
            [MgrOp.success "browser", MgrOp.failure "browser" "boom" 9]) "browser").breakers)
        "browser" = some ({} : CircuitBreaker) ∧
    ({} : CircuitBreaker).failure_threshold = 3 ∧
    ({} : CircuitBreaker).recovery_timeout = 1800 := by
  exact C9_init_error_severity ⟨[]⟩ "browser" "Playwright not installed" 5 (by decide)
    [MgrOp.success "browser", MgrOp.failure "browser" "boom" 9] (by decide)

end CircuitBreakerModel

namespace ToolRegistryModel

/-- C8: `mask_tool` on a global tool with any status other than `enabled`
returns false and leaves the whole registry (the tool's mask included)
unchanged, and `mask_tool` on a name that is not registered likewise
returns false and changes nothing. -/
theorem C8_mask_tool_guards (reg : ToolRegistry) (tool_name : String)
    (status : ToolStatus) (reason : Option String) (now : Rat) :
    (tool_name ∈ reg.global_tools → status ≠ ToolStatus.enabled →
      mask_tool reg tool_name status reason now = (false, reg)) ∧
    (PyDict.alistFind reg.tools tool_name = none →
      mask_tool reg tool_name status reason now = (false, reg)) := by
  constructor
  · intro hg hs
    by_cases hf : (PyDict.alistFind reg.tools tool_name).isNone
    · simp [mask_tool, hf]
    · simp [mask_tool, hf, hg, hs]
  · intro hf
    simp [mask_tool, hf]

/-- C8 witness: a registry holding the single global tool `calc`; masking
`calc` as disabled fails and changes nothing, as does masking the
unregistered name `zzz`. -/
theorem C8_mask_tool_guards_witness :
    "calc" ∈ (register_tool {} { name := "calc", description := "d" } true).global_tools ∧
    mask_tool (register_tool {} { name := "calc", description := "d" } true) "calc"
        ToolStatus.disabled (some "r") 0
      = (false, register_tool {} { name := "calc", description := "d" } true) ∧
    PyDict.alistFind (register_tool {} { name := "calc", description := "d" } true).tools
        "zzz" = none ∧
    mask_tool (register_tool {} { name := "calc", description := "d" } true) "zzz"
        ToolStatus.disabled none 0
      = (false, register_tool {} { name := "calc", description := "d" } true) := by
  refine ⟨by decide, ?_, by decide, ?_⟩
  · exact (C8_mask_tool_guards (register_tool {} { name := "calc", description := "d" } true)
      "calc" ToolStatus.disabled (some "r") 0).1 (by decide) (by decide)
  · exact (C8_mask_tool_guards (register_tool {} { name := "calc", description := "d" } true)
      "zzz" ToolStatus.disabled none 0).2 (by decide)

/-- C10: re-registering an already-registered name replaces the stored
tool and installs a fresh default mask (status `enabled`, no reason, no
`disabled_at`, empty permission and context requirements), and a name
already in the global set stays in it no matter what `is_global` flag the
re-registration passes. -/
theorem C10_register_tool_upsert (reg : ToolRegistry) (tool : BaseTool) (g : Bool)
    (hprev : (PyDict.alistFind reg.tools tool.name).isSome = true) :
    PyDict.alistFind (register_tool reg tool g).tools tool.name = some tool ∧
    PyDict.alistFind (register_tool reg tool g).masks tool.name
      = some { tool_name := tool.name } ∧
    (tool.name ∈ reg.global_tools → tool.name ∈ (register_tool reg tool g).global_tools) := by
  refine ⟨?_, ?_, ?_⟩
  · cases g <;> simp [register_tool, PyDict.alistFind_upd_self]
  · cases g <;> simp [register_tool, PyDict.alistFind_upd_self]
  · intro hmem
    cases g with
    | false => simpa [register_tool] using hmem
    | true => simp [register_tool, hmem]

/-- C10 witness: register `t` as global, then re-register the same name
with a new description and `is_global = False`: the tool and mask are
replaced and `t` is still global. -/
theorem C10_register_tool_upsert_witness :
    PyDict.alistFind (register_tool (register_tool {} { name := "t", description := "d1" } true)
        { name := "t", description := "d2" } false).tools "t"
      = some { name := "t", description := "d2" } ∧
    PyDict.alistFind (register_tool (register_tool {} { name := "t", description := "d1" } true)
        { name := "t", description := "d2" } false).masks "t"
      = some { tool_name := "t" } ∧
    "t" ∈ (register_tool (register_tool {} { name := "t", description := "d1" } true)
        { name := "t", description := "d2" } false).global_tools := by
  have h := C10_register_tool_upsert
    (register_tool {} { name := "t", description := "d1" } true)
    { name := "t", description := "d2" } false (by decide)
  exact ⟨h.1, h.2.1, h.2.2 (by decide)⟩

end ToolRegistryModel

namespace MemoryModel

theorem compress_memory_failure (env : SummarizerEnv) (now : Rat) (mem : EnhancedMemory)
    (hfail : truthySummary (env.ask (promptOf mem)) = false) :
    (compress_memory env now mem).messages = mem.messages ∧
    (compress_memory env now mem).summary = mem.summary ∧
    (compress_memory env now mem).archived_messages
      = mem.archived_messages ++ pyInitSlice mem.messages mem.window.window_size := by
  by_cases he : (pyInitSlice mem.messages mem.window.window_size).isEmpty = true
  · have hnil : pyInitSlice mem.messages mem.window.window_size = [] := by
      simpa using he
    simp [compress_memory, he, hnil]
  · simp [compress_memory, he, hfail]

theorem compress_memory_success_total (env : SummarizerEnv) (now : Rat)
    (mem : EnhancedMemory)
    (hok : truthySummary (env.ask (promptOf mem)) = true) :
    (compress_memory env now mem).archived_messages.length
      + (compress_memory env now mem).messages.length
      = mem.archived_messages.length + mem.messages.length := by
  by_cases he : (pyInitSlice mem.messages mem.window.window_size).isEmpty = true
  · simp [compress_memory, he]
  · have hne : pyInitSlice mem.messages mem.window.window_size ≠ [] := by
      simpa using he
    have hw : mem.window.window_size ≠ 0 := by
      intro h0
      exact hne (by simp [pyInitSlice, h0])
    have hlen : mem.window.window_size < mem.messages.length := by
      by_contra hle
      push_neg at hle
      exact hne (by simp [pyInitSlice, hw, Nat.sub_eq_zero_of_le hle])
    simp only [compress_memory, he, hok, Bool.false_eq_true, if_false, if_true]
    simp [pyInitSlice, pyLastSlice, hw, List.length_take, List.length_drop]
    omega

end MemoryModel

namespace MemoryModel

/-- C4 counterexample: a 2-message memory with window size 1 (so the
list is over the window) whose summarizer raises: the evicted message is
archived but the live list is left untrimmed, so the total number of
held messages grows from 2 to 3 — the cycle is not loss-free in the
claimed sense (the evicted message is duplicated). -/
theorem C4_compaction_counterexample :
    (⟨⟨1, 1⟩, none, [⟨"user", some "hello"⟩, ⟨"assistant", some "there"⟩], []⟩
        : EnhancedMemory).window.window_size
      < (⟨⟨1, 1⟩, none, [⟨"user", some "hello"⟩, ⟨"assistant", some "there"⟩], []⟩
        : EnhancedMemory).messages.length ∧
    (compress_memory ⟨fun _ => SummarizerOutcome.raises⟩ 0
        (⟨⟨1, 1⟩, none, [⟨"user", some "hello"⟩, ⟨"assistant", some "there"⟩], []⟩
          : EnhancedMemory)).archived_messages.length
      + (compress_memory ⟨fun _ => SummarizerOutcome.raises⟩ 0
        (⟨⟨1, 1⟩, none, [⟨"user", some "hello"⟩, ⟨"assistant", some "there"⟩], []⟩
          : EnhancedMemory)).messages.length
      ≠ (⟨⟨1, 1⟩, none, [⟨"user", some "hello"⟩, ⟨"assistant", some "there"⟩], []⟩
        : EnhancedMemory).archived_messages.length
        + (⟨⟨1, 1⟩, none, [⟨"user", some "hello"⟩, ⟨"assistant", some "there"⟩], []⟩
          : EnhancedMemory).messages.length := by
  decide

/-- C4 amended: a compaction cycle on an over-window memory preserves
`len(archived_messages) + len(messages)` exactly when the summarizer
call returns truthy content; when it raises or returns falsy content the
evicted prefix `messages[:-window_size]` is appended to the archive
while the live list is left untrimmed, so the total grows by that
prefix's length (messages are duplicated, none dropped). -/
theorem C4_compaction_totals (env : SummarizerEnv) (now : Rat) (mem : EnhancedMemory)
    (hlen : mem.window.window_size < mem.messages.length) :
    (truthySummary (env.ask (promptOf mem)) = true →
      (compress_memory env now mem).archived_messages.length
        + (compress_memory env now mem).messages.length
        = mem.archived_messages.length + mem.messages.length) ∧
    (truthySummary (env.ask (promptOf mem)) = false →
      (compress_memory env now mem).messages = mem.messages ∧
      (compress_memory env now mem).archived_messages
        = mem.archived_messages ++ pyInitSlice mem.messages mem.window.window_size ∧
      (compress_memory env now mem).archived_messages.length
        + (compress_memory env now mem).messages.length
        = mem.archived_messages.length + mem.messages.length
          + (pyInitSlice mem.messages mem.window.window_size).length) := by
  constructor
  · intro hok
    exact compress_memory_success_total env now mem hok
  · intro hfail
    obtain ⟨h1, h2, h3⟩ := compress_memory_failure env now mem hfail
    refine ⟨h1, h3, ?_⟩
    rw [h1, h3]
    simp [List.length_append]
    omega

/-- C4 amended witness: the same 2-message window-1 memory with a
summarizer that answers `"S"`: one message is archived, one stays live,
and the total 0 + 2 = 1 + 1 is preserved. -/
theorem C4_compaction_totals_witness :
    (compress_memory ⟨fun _ => SummarizerOutcome.returns (some ⟨"assistant", some "S"⟩)⟩ 0
        (⟨⟨1, 1⟩, none, [⟨"user", some "hello"⟩, ⟨"assistant", some "there"⟩], []⟩
          : EnhancedMemory)).archived_messages.length
      + (compress_memory ⟨fun _ => SummarizerOutcome.returns (some ⟨"assistant", some "S"⟩)⟩ 0
        (⟨⟨1, 1⟩, none, [⟨"user", some "hello"⟩, ⟨"assistant", some "there"⟩], []⟩
          : EnhancedMemory)).messages.length
      = (⟨⟨1, 1⟩, none, [⟨"user", some "hello"⟩, ⟨"assistant", some "there"⟩], []⟩
        : EnhancedMemory).archived_messages.length
        + (⟨⟨1, 1⟩, none, [⟨"user", some "hello"⟩, ⟨"assistant", some "there"⟩], []⟩
          : EnhancedMemory).messages.length := by
  exact (C4_compaction_totals ⟨fun _ => SummarizerOutcome.returns (some ⟨"assistant", some "S"⟩)⟩
    0 (⟨⟨1, 1⟩, none, [⟨"user", some "hello"⟩, ⟨"assistant", some "there"⟩], []⟩
      : EnhancedMemory) (by decide)).1 (by decide)

/-- C5 counterexample: when the summarizer returns a response with empty
content, the cycle is NOT a no-op: `archived_messages` has already been
extended with the evicted prefix before the summarizer was consulted. -/
theorem C5_compaction_counterexample :
    (⟨⟨1, 1⟩, none, [⟨"user", some "hello"⟩, ⟨"assistant", some "there"⟩], []⟩
        : EnhancedMemory).window.window_size
      < (⟨⟨1, 1⟩, none, [⟨"user", some "hello"⟩, ⟨"assistant", some "there"⟩], []⟩
        : EnhancedMemory).messages.length ∧
    (compress_memory ⟨fun _ => SummarizerOutcome.returns (some ⟨"assistant", some ""⟩)⟩ 0
        (⟨⟨1, 1⟩, none, [⟨"user", some "hello"⟩, ⟨"assistant", some "there"⟩], []⟩
          : EnhancedMemory)).archived_messages
      ≠ (⟨⟨1, 1⟩, none, [⟨"user", some "hello"⟩, ⟨"assistant", some "there"⟩], []⟩
        : EnhancedMemory).archived_messages := by
  decide

/-- C5 amended: when the summarizer raises or returns falsy content, the
live `messages` list and the `summary` are left exactly as they were,
but `archived_messages` has the evicted prefix `messages[:-window_size]`
appended — the cycle is a no-op except for this early archiving (the
over-threshold live list is indeed left intact for the next append to
retry). -/
theorem C5_compaction_failure_semantics (env : SummarizerEnv) (now : Rat)
    (mem : EnhancedMemory)
    (hfail : truthySummary (env.ask (promptOf mem)) = false) :
    (compress_memory env now mem).messages = mem.messages ∧
    (compress_memory env now mem).summary = mem.summary ∧
    (compress_memory env now mem).archived_messages
      = mem.archived_messages ++ pyInitSlice mem.messages mem.window.window_size :=
  compress_memory_failure env now mem hfail

/-- C5 amended witness: the raising summarizer on the 2-message memory —
messages and summary unchanged, the evicted first message archived. -/
theorem C5_compaction_failure_semantics_witness :
    (compress_memory ⟨fun _ => SummarizerOutcome.raises⟩ 0
        (⟨⟨1, 1⟩, none, [⟨"user", some "hello"⟩, ⟨"assistant", some "there"⟩], []⟩
          : EnhancedMemory)).messages
      = (⟨⟨1, 1⟩, none, [⟨"user", some "hello"⟩, ⟨"assistant", some "there"⟩], []⟩
        : EnhancedMemory).messages ∧
    (compress_memory ⟨fun _ => SummarizerOutcome.raises⟩ 0
        (⟨⟨1, 1⟩, none, [⟨"user", some "hello"⟩, ⟨"assistant", some "there"⟩], []⟩
          : EnhancedMemory)).summary
      = (⟨⟨1, 1⟩, none, [⟨"user", some "hello"⟩, ⟨"assistant", some "there"⟩], []⟩
        : EnhancedMemory).summary ∧
    (compress_memory ⟨fun _ => SummarizerOutcome.raises⟩ 0
        (⟨⟨1, 1⟩, none, [⟨"user", some "hello"⟩, ⟨"assistant", some "there"⟩], []⟩
          : EnhancedMemory)).archived_messages
      = (⟨⟨1, 1⟩, none, [⟨"user", some "hello"⟩, ⟨"assistant", some "there"⟩], []⟩
        : EnhancedMemory).archived_messages
        ++ pyInitSlice (⟨⟨1, 1⟩, none, [⟨"user", some "hello"⟩, ⟨"assistant", some "there"⟩], []⟩
          : EnhancedMemory).messages
          (⟨⟨1, 1⟩, none, [⟨"user", some "hello"⟩, ⟨"assistant", some "there"⟩], []⟩
            : EnhancedMemory).window.window_size := by
  exact C5_compaction_failure_semantics ⟨fun _ => SummarizerOutcome.raises⟩ 0
    (⟨⟨1, 1⟩, none, [⟨"user", some "hello"⟩, ⟨"assistant", some "there"⟩], []⟩
      : EnhancedMemory) (by decide)

end MemoryModel

namespace OrchestratorModel

/-- The four observable steps one `execution_order` entry contributes to
`_handle_plan`'s behaviour (empty when the id is not in the task map):
`tool_call` emitted, task dispatched, result obtained, `tool_result`
emitted. -/
def taskBlock (env : OrchEnv) (cid : String) (tasks : List Task) (tid : String) :
    List Action :=
  match taskMapFind tasks tid with
  | none => []
  | some task =>
    [Action.emit (toolCallEvent cid task), Action.dispatch task,
     Action.obtain tid (wait_for_task_result env tid),
     Action.emit (toolResultEvent cid (wait_for_task_result env tid))]

/-- The `tool_call`/`tool_result` event pair one `execution_order` entry
contributes (empty when the id is not in the task map). -/
def taskPairEvents (env : OrchEnv) (cid : String) (tasks : List Task)
    (tid : String) : List Event :=
  match taskMapFind tasks tid with
  | none => []
  | some task =>
    [toolCallEvent cid task, toolResultEvent cid (wait_for_task_result env tid)]

/-- The events put on the queue along a trace. -/
def emittedEvents (tr : List Action) : List Event :=
  tr.filterMap (fun a =>
    match a with
    | Action.emit e => some e
    | _ => none)

/-- Whether an event type is `tool_call` or `tool_result`. -/
def isToolEvent (t : EventType) : Bool :=
  match t with
  | EventType.tool_call => true
  | EventType.tool_result => true
  | _ => false

/-- Whether an action belongs to task execution: a `tool_call` or
`tool_result` emission, a dispatch, or a result acquisition. -/
def isTaskAction (a : Action) : Bool :=
  match a with
  | Action.emit e => isToolEvent e.type
  | Action.dispatch _ => true
  | Action.obtain _ _ => true

end OrchestratorModel

/-! ### Orchestrator lemmas -/

namespace OrchestratorModel

theorem emitEvent_active_intents (st : OrchState) (e : Event) :
    (emitEvent st e).active_intents = st.active_intents := by
  unfold emitEvent
  cases PyDict.alistFind st.response_callbacks e.correlation_id <;> rfl

theorem emitEvent_task_results (st : OrchState) (e : Event) :
    (emitEvent st e).task_results = st.task_results := by
  unfold emitEvent
  cases PyDict.alistFind st.response_callbacks e.correlation_id <;> rfl

theorem emitEvent_queue (st : OrchState) (e : Event) (q : List Event)
    (h : PyDict.alistFind st.response_callbacks e.correlation_id = some q) :
    PyDict.alistFind (emitEvent st e).response_callbacks e.correlation_id
      = some (q ++ [e]) := by
  simp [emitEvent, h, PyDict.alistFind_upd_self]

theorem execLoop_spec (env : OrchEnv) (cid : String) (tasks : List Task)
    (order : List String) : ∀ st : OrchState,
    (execLoop env cid tasks st order).2 = order.flatMap (taskBlock env cid tasks) ∧
    ((execLoop env cid tasks st order).1).active_intents = st.active_intents ∧
    (∀ q, PyDict.alistFind st.response_callbacks cid = some q →
      PyDict.alistFind ((execLoop env cid tasks st order).1).response_callbacks cid
        = some (q ++ order.flatMap (taskPairEvents env cid tasks))) := by
  induction order with
  | nil =>
    intro st
    simp [execLoop]
  | cons tid rest ih =>
    intro st
    cases hfind : taskMapFind tasks tid with
    | none =>
      obtain ⟨h1, h2, h3⟩ := ih st
      refine ⟨?_, ?_, ?_⟩
      · simpa [execLoop, hfind, taskBlock] using h1
      · simpa [execLoop, hfind] using h2
      · intro q hq
        have := h3 q hq
        simpa [execLoop, hfind, taskPairEvents] using this
    | some task =>
      have hcall : (toolCallEvent cid task).correlation_id = cid := rfl
      have hres :
          (toolResultEvent cid (wait_for_task_result env tid)).correlation_id = cid := rfl
      obtain ⟨h1, h2, h3⟩ := ih
        ({ emitEvent (emitEvent st (toolCallEvent cid task))
            (toolResultEvent cid (wait_for_task_result env tid)) with
          task_results := PyDict.alistUpd (emitEvent (emitEvent st (toolCallEvent cid task))
            (toolResultEvent cid (wait_for_task_result env tid))).task_results tid
            (wait_for_task_result env tid) })
      refine ⟨?_, ?_, ?_⟩
      · simp only [execLoop, hfind]
        rw [h1]
        simp [taskBlock, hfind]
      · simp only [execLoop, hfind]
        rw [h2]
        simp [emitEvent_active_intents]
      · intro q hq
        have hq1 := emitEvent_queue st (toolCallEvent cid task) q (by rw [hcall]; exact hq)
        rw [hcall] at hq1
        have hq2 := emitEvent_queue (emitEvent st (toolCallEvent cid task))
          (toolResultEvent cid (wait_for_task_result env tid)) (q ++ [toolCallEvent cid task])
          (by rw [hres]; exact hq1)
        rw [hres] at hq2
        have := h3 (q ++ [toolCallEvent cid task]
          ++ [toolResultEvent cid (wait_for_task_result env tid)]) (by simpa using hq2)
        simp only [execLoop, hfind]
        rw [this]
        simp [taskPairEvents, hfind]

end OrchestratorModel

namespace OrchestratorModel

theorem execLoop_results_preserve (env : OrchEnv) (cid : String) (tasks : List Task)
    (order : List String) : ∀ (st : OrchState) (tid : String),
    PyDict.alistFind st.task_results tid = some (wait_for_task_result env tid) →
    PyDict.alistFind ((execLoop env cid tasks st order).1).task_results tid
      = some (wait_for_task_result env tid) := by
  induction order with
  | nil =>
    intro st tid h
    simpa [execLoop] using h
  | cons tid0 rest ih =>
    intro st tid h
    cases hfind : taskMapFind tasks tid0 with
    | none =>
      simp only [execLoop, hfind]
      exact ih st tid h
    | some task =>
      simp only [execLoop, hfind]
      apply ih
      by_cases he : tid0 = tid
      · subst he
        simp [PyDict.alistFind_upd_self]
      · simp [PyDict.alistFind_upd_ne _ _ _ _ he, emitEvent_task_results, h]

theorem execLoop_results_stored (env : OrchEnv) (cid : String) (tasks : List Task)
    (order : List String) : ∀ (st : OrchState) (tid : String),
    tid ∈ order → (taskMapFind tasks tid).isSome = true →
    PyDict.alistFind ((execLoop env cid tasks st order).1).task_results tid
      = some (wait_for_task_result env tid) := by
  induction order with
  | nil =>
    intro st tid hmem _
    simp at hmem
  | cons tid0 rest ih =>
    intro st tid hmem hsome
    by_cases he : tid = tid0
    · subst he
      obtain ⟨task, htask⟩ := Option.isSome_iff_exists.mp hsome
      simp only [execLoop, htask]
      apply execLoop_results_preserve
      simp [PyDict.alistFind_upd_self]
    · have hmem' : tid ∈ rest := by
        rcases List.mem_cons.mp hmem with h | h
        · exact absurd h he
        · exact h
      cases hfind : taskMapFind tasks tid0 with
      | none =>
        simp only [execLoop, hfind]
        exact ih _ tid hmem' hsome
      | some task =>
        simp only [execLoop, hfind]
        exact ih _ tid hmem' hsome

theorem answerStep_task_results (env : OrchEnv) (st : OrchState) (cid : String)
    (question context_text : String) (unique_sources : List Source) :
    ((answerStep env st cid question context_text unique_sources).1).task_results
      = st.task_results := by
  cases hans : env.answer question context_text with
  | noKey => simp [answerStep, hans, emitEvent_task_results]
  | ok ans =>
    by_cases hsrc : unique_sources.isEmpty
    · simp [answerStep, hans, hsrc, emitEvent_task_results]
    · simp [answerStep, hans, hsrc, emitEvent_task_results]
  | exn msg => simp [answerStep, hans, emitEvent_task_results]

theorem answerStep_active_intents (env : OrchEnv) (st : OrchState) (cid : String)
    (question context_text : String) (unique_sources : List Source) :
    ((answerStep env st cid question context_text unique_sources).1).active_intents
      = st.active_intents := by
  cases hans : env.answer question context_text with
  | noKey => simp [answerStep, hans, emitEvent_active_intents]
  | ok ans =>
    by_cases hsrc : unique_sources.isEmpty
    · simp [answerStep, hans, hsrc, emitEvent_active_intents]
    · simp [answerStep, hans, hsrc, emitEvent_active_intents]
  | exn msg => simp [answerStep, hans, emitEvent_active_intents]

theorem answerStep_queue (env : OrchEnv) (st : OrchState) (cid : String)
    (question context_text : String) (unique_sources : List Source) (q : List Event)
    (hq : PyDict.alistFind st.response_callbacks cid = some q) :
    PyDict.alistFind
        ((answerStep env st cid question context_text unique_sources).1).response_callbacks
        cid
      = some (q ++ (answerStep env st cid question context_text unique_sources).2) := by
  cases hans : env.answer question context_text with
  | noKey =>
    simp only [answerStep, hans]
    exact emitEvent_queue st _ q hq
  | ok ans =>
    by_cases hsrc : unique_sources.isEmpty
    · simp only [answerStep, hans, hsrc, if_true]
      exact emitEvent_queue st _ q hq
    · simp only [answerStep, hans, hsrc, if_false]
      have h1 := emitEvent_queue st (answerEvent cid ans) q hq
      have h2 := emitEvent_queue (emitEvent st (answerEvent cid ans))
        (sourceEvent cid unique_sources) (q ++ [answerEvent cid ans]) h1
      simpa using h2
  | exn msg =>
    simp only [answerStep, hans]
    exact emitEvent_queue st _ q hq

theorem answerStep_events_not_tool (env : OrchEnv) (st : OrchState) (cid : String)
    (question context_text : String) (unique_sources : List Source) :
    ∀ e ∈ (answerStep env st cid question context_text unique_sources).2,
      isToolEvent e.type = false := by
  cases hans : env.answer question context_text with
  | noKey =>
    simp [answerStep, hans, answerEvent, isToolEvent]
  | ok ans =>
    by_cases hsrc : unique_sources.isEmpty
    · simp [answerStep, hans, hsrc, answerEvent, isToolEvent]
    · simp [answerStep, hans, hsrc, answerEvent, sourceEvent, isToolEvent]
  | exn msg =>
    simp [answerStep, hans, answerEvent, isToolEvent]

end OrchestratorModel

namespace OrchestratorModel

@[simp] theorem thinkingEvent_cid (cid content : String) :
    (thinkingEvent cid content).correlation_id = cid := rfl

@[simp] theorem toolCallEvent_cid (cid : String) (task : Task) :
    (toolCallEvent cid task).correlation_id = cid := rfl

@[simp] theorem toolResultEvent_cid (cid : String) (r : TResult) :
    (toolResultEvent cid r).correlation_id = cid := rfl

@[simp] theorem planningEvent_cid (cid summary : String) (qs : List String)
    (ts : List TaskDesc) : (planningEvent cid summary qs ts).correlation_id = cid := rfl

@[simp] theorem generatingEvent_cid (cid : String) (a b : Nat) :
    (generatingEvent cid a b).correlation_id = cid := rfl

@[simp] theorem answerEvent_cid (cid content : String) :
    (answerEvent cid content).correlation_id = cid := rfl

@[simp] theorem sourceEvent_cid (cid : String) (srcs : List Source) :
    (sourceEvent cid srcs).correlation_id = cid := rfl

@[simp] theorem doneEvent_cid (cid : String) :
    (doneEvent cid).correlation_id = cid := rfl

@[simp] theorem errorEvent_cid (cid content : String) :
    (errorEvent cid content).correlation_id = cid := rfl

@[simp] theorem emittedEvents_nil : emittedEvents [] = [] := rfl

@[simp] theorem emittedEvents_cons_emit (e : Event) (tr : List Action) :
    emittedEvents (Action.emit e :: tr) = e :: emittedEvents tr := rfl

@[simp] theorem emittedEvents_cons_dispatch (t : Task) (tr : List Action) :
    emittedEvents (Action.dispatch t :: tr) = emittedEvents tr := rfl

@[simp] theorem emittedEvents_cons_obtain (tid : String) (r : TResult) (tr : List Action) :
    emittedEvents (Action.obtain tid r :: tr) = emittedEvents tr := rfl

@[simp] theorem emittedEvents_append (l1 l2 : List Action) :
    emittedEvents (l1 ++ l2) = emittedEvents l1 ++ emittedEvents l2 := by
  simp [emittedEvents, List.filterMap_append]

@[simp] theorem emittedEvents_map_emit (l : List Event) :
    emittedEvents (l.map Action.emit) = l := by
  induction l with
  | nil => rfl
  | cons e rest ih => simp [ih]

theorem find_emitEvent_cbs (st : OrchState) (e : Event) (k : String)
    (hk : e.correlation_id = k) :
    PyDict.alistFind (emitEvent st e).response_callbacks k
      = (PyDict.alistFind st.response_callbacks k).map (fun q => q ++ [e]) := by
  subst hk
  unfold emitEvent
  cases h : PyDict.alistFind st.response_callbacks e.correlation_id with
  | none => simp [h]
  | some q => simp [h, PyDict.alistFind_upd_self]

@[simp] theorem find_emit_thinking (st : OrchState) (cid content : String) :
    PyDict.alistFind (emitEvent st (thinkingEvent cid content)).response_callbacks cid
      = (PyDict.alistFind st.response_callbacks cid).map
          (fun q => q ++ [thinkingEvent cid content]) :=
  find_emitEvent_cbs _ _ _ rfl

@[simp] theorem find_emit_toolCall (st : OrchState) (cid : String) (task : Task) :
    PyDict.alistFind (emitEvent st (toolCallEvent cid task)).response_callbacks cid
      = (PyDict.alistFind st.response_callbacks cid).map
          (fun q => q ++ [toolCallEvent cid task]) :=
  find_emitEvent_cbs _ _ _ rfl

@[simp] theorem find_emit_toolResult (st : OrchState) (cid : String) (r : TResult) :
    PyDict.alistFind (emitEvent st (toolResultEvent cid r)).response_callbacks cid
      = (PyDict.alistFind st.response_callbacks cid).map
          (fun q => q ++ [toolResultEvent cid r]) :=
  find_emitEvent_cbs _ _ _ rfl

@[simp] theorem find_emit_planning (st : OrchState) (cid summary : String)
    (qs : List String) (ts : List TaskDesc) :
    PyDict.alistFind (emitEvent st (planningEvent cid summary qs ts)).response_callbacks cid
      = (PyDict.alistFind st.response_callbacks cid).map
          (fun q => q ++ [planningEvent cid summary qs ts]) :=
  find_emitEvent_cbs _ _ _ rfl

@[simp] theorem find_emit_generating (st : OrchState) (cid : String) (a b : Nat) :
    PyDict.alistFind (emitEvent st (generatingEvent cid a b)).response_callbacks cid
      = (PyDict.alistFind st.response_callbacks cid).map
          (fun q => q ++ [generatingEvent cid a b]) :=
  find_emitEvent_cbs _ _ _ rfl

@[simp] theorem find_emit_answer (st : OrchState) (cid content : String) :
    PyDict.alistFind (emitEvent st (answerEvent cid content)).response_callbacks cid
      = (PyDict.alistFind st.response_callbacks cid).map
          (fun q => q ++ [answerEvent cid content]) :=
  find_emitEvent_cbs _ _ _ rfl

@[simp] theorem find_emit_source (st : OrchState) (cid : String) (srcs : List Source) :
    PyDict.alistFind (emitEvent st (sourceEvent cid srcs)).response_callbacks cid
      = (PyDict.alistFind st.response_callbacks cid).map
          (fun q => q ++ [sourceEvent cid srcs]) :=
  find_emitEvent_cbs _ _ _ rfl

@[simp] theorem find_emit_done (st : OrchState) (cid : String) :
    PyDict.alistFind (emitEvent st (doneEvent cid)).response_callbacks cid
      = (PyDict.alistFind st.response_callbacks cid).map
          (fun q => q ++ [doneEvent cid]) :=
  find_emitEvent_cbs _ _ _ rfl

theorem find_answerStep_cbs (env : OrchEnv) (st : OrchState) (cid : String)
    (question context_text : String) (unique_sources : List Source) :
    PyDict.alistFind
        ((answerStep env st cid question context_text unique_sources).1).response_callbacks
        cid
      = (PyDict.alistFind st.response_callbacks cid).map
          (fun q => q ++ (answerStep env st cid question context_text unique_sources).2) := by
  cases hans : env.answer question context_text with
  | noKey =>
    simp [answerStep, hans]
  | ok ans =>
    by_cases hsrc : unique_sources.isEmpty
    · simp [answerStep, hans, hsrc]
    · simp only [answerStep, hans, hsrc, if_false, Bool.false_eq_true, find_emit_answer,
        find_emit_source]
      cases PyDict.alistFind st.response_callbacks cid <;> simp
  | exn msg =>
    simp [answerStep, hans]

theorem find_gfa_cbs (env : OrchEnv) (st : OrchState) (cid : String) :
    PyDict.alistFind ((generate_final_answer env st cid).1).response_callbacks cid
      = (PyDict.alistFind st.response_callbacks cid).map
          (fun q => q ++ emittedEvents ((generate_final_answer env st cid).2)) := by
  simp only [generate_final_answer, find_emit_done, find_emit_generating, find_answerStep_cbs]
  cases PyDict.alistFind st.response_callbacks cid <;> simp

end OrchestratorModel

namespace OrchestratorModel

theorem find_execLoop_cbs (env : OrchEnv) (cid : String) (tasks : List Task)
    (order : List String) : ∀ st : OrchState,
    PyDict.alistFind ((execLoop env cid tasks st order).1).response_callbacks cid
      = (PyDict.alistFind st.response_callbacks cid).map
          (fun q => q ++ order.flatMap (taskPairEvents env cid tasks)) := by
  induction order with
  | nil =>
    intro st
    cases h : PyDict.alistFind st.response_callbacks cid <;> simp [execLoop, h]
  | cons tid rest ih =>
    intro st
    cases hfind : taskMapFind tasks tid with
    | none =>
      simp only [execLoop, hfind]
      rw [ih st]
      cases h : PyDict.alistFind st.response_callbacks cid <;>
        simp [h, taskPairEvents, hfind]
    | some task =>
      simp only [execLoop, hfind]
      rw [ih]
      simp only [find_emit_toolCall, find_emit_toolResult]
      cases h : PyDict.alistFind st.response_callbacks cid <;>
        simp [h, taskPairEvents, hfind]

theorem gfa_task_results (env : OrchEnv) (st : OrchState) (cid : String) :
    ((generate_final_answer env st cid).1).task_results = st.task_results := by
  simp only [generate_final_answer]
  simp [emitEvent_task_results, answerStep_task_results]

theorem gfa_active_pop (env : OrchEnv) (st : OrchState) (cid : String) :
    PyDict.alistFind ((generate_final_answer env st cid).1).active_intents cid = none := by
  simp only [generate_final_answer]
  simp [PyDict.alistFind_pop_self]

theorem getLast?_cons_concat {α : Type} (l : List α) (a b : α) :
    (a :: (l ++ [b])).getLast? = some b := by
  induction l generalizing a with
  | nil => rfl
  | cons c t ih =>
    rw [List.cons_append, List.getLast?_cons_cons]
    exact ih c

theorem gfa_trace_last (env : OrchEnv) (st : OrchState) (cid : String) :
    ((generate_final_answer env st cid).2).getLast? = some (Action.emit (doneEvent cid)) := by
  simp only [generate_final_answer]
  exact getLast?_cons_concat _ _ _

theorem gfa_actions_not_task (env : OrchEnv) (st : OrchState) (cid : String) :
    ∀ a ∈ (generate_final_answer env st cid).2, isTaskAction a = false := by
  simp only [generate_final_answer]
  intro a ha
  simp only [List.mem_cons, List.mem_append, List.mem_map, List.mem_singleton] at ha
  rcases ha with (rfl | ⟨e, he, rfl⟩) | rfl | h0
  · rfl
  · have := answerStep_events_not_tool env _ cid _ _ _ e he
    simpa [isTaskAction] using this
  · rfl
  · simp at h0

theorem genresp_trace (st : OrchState) (content cid : String) :
    (generate_response st content cid).2
      = [Action.emit (answerEvent cid content), Action.emit (doneEvent cid)] := rfl

theorem genresp_task_results (st : OrchState) (content cid : String) :
    ((generate_response st content cid).1).task_results = st.task_results := by
  simp [generate_response, emitEvent_task_results]

theorem genresp_active_intents (st : OrchState) (content cid : String) :
    ((generate_response st content cid).1).active_intents = st.active_intents := by
  simp [generate_response, emitEvent_active_intents]

theorem find_genresp_cbs (st : OrchState) (content cid : String) :
    PyDict.alistFind ((generate_response st content cid).1).response_callbacks cid
      = (PyDict.alistFind st.response_callbacks cid).map
          (fun q => q ++ emittedEvents ((generate_response st content cid).2)) := by
  simp only [generate_response, find_emit_answer, find_emit_done]
  cases h : PyDict.alistFind st.response_callbacks cid <;> simp

end OrchestratorModel

namespace OrchestratorModel

theorem flatMap_nil_of_all_nil {α β : Type} (l : List α) (f : α → List β)
    (h : ∀ x, f x = []) : l.flatMap f = [] := by
  induction l with
  | nil => rfl
  | cons a t ih => simp [h, ih]

theorem emitted_taskBlocks (env : OrchEnv) (cid : String) (tasks : List Task)
    (order : List String) :
    emittedEvents (order.flatMap (taskBlock env cid tasks))
      = order.flatMap (taskPairEvents env cid tasks) := by
  induction order with
  | nil => rfl
  | cons tid rest ih =>
    cases hfind : taskMapFind tasks tid with
    | none => simp [taskBlock, taskPairEvents, hfind, ih]
    | some task => simp [taskBlock, taskPairEvents, hfind, ih]

theorem taskPairEvents_all_tool (env : OrchEnv) (cid : String) (tasks : List Task)
    (order : List String) :
    ∀ e ∈ order.flatMap (taskPairEvents env cid tasks), isToolEvent e.type = true := by
  induction order with
  | nil => simp
  | cons tid rest ih =>
    intro e he
    simp only [List.flatMap_cons, List.mem_append] at he
    rcases he with he | he
    · cases hfind : taskMapFind tasks tid with
      | none => rw [taskPairEvents, hfind] at he; simp at he
      | some task =>
        rw [taskPairEvents, hfind] at he
        simp only [List.mem_cons, List.mem_singleton] at he
        rcases he with rfl | rfl | h0
        · rfl
        · rfl
        · simp at h0
    · exact ih e he

theorem taskPairEvents_length (env : OrchEnv) (cid : String) (tasks : List Task)
    (order : List String)
    (hall : ∀ tid ∈ order, (taskMapFind tasks tid).isSome = true) :
    (order.flatMap (taskPairEvents env cid tasks)).length = 2 * order.length := by
  induction order with
  | nil => rfl
  | cons tid rest ih =>
    obtain ⟨task, htask⟩ := Option.isSome_iff_exists.mp (hall tid (by simp))
    have ihh := ih (fun t ht => hall t (by simp [ht]))
    simp [taskPairEvents, htask, ihh]
    omega

theorem filter_tool_nil_of_not_task {l : List Event}
    (h : ∀ e ∈ l, isToolEvent e.type = false) :
    l.filter (fun e => isToolEvent e.type) = [] := by
  induction l with
  | nil => rfl
  | cons e t ih =>
    have he := h e (by simp)
    have ht := ih (fun x hx => h x (by simp [hx]))
    simp [List.filter_cons, he, ht]

theorem order_nil_of_tasks_nil (plan : Plan) (hempty : plan.tasks = [])
    (hall : ∀ tid ∈ executionOrderOf plan, (taskMapFind plan.tasks tid).isSome = true) :
    executionOrderOf plan = [] := by
  rcases h : executionOrderOf plan with _ | ⟨tid, rest⟩
  · rfl
  · have := hall tid (by rw [h]; simp)
    rw [hempty] at this
    simp [taskMapFind] at this

theorem handle_intent_active (env : OrchEnv) (st : OrchState) (intent : Intent)
    (cid : String) :
    PyDict.alistFind ((handle_intent env st intent cid).1).active_intents cid
      = some { intent := intent, status := "planning", started_at := env.now } := by
  simp [handle_intent, emitEvent_active_intents, PyDict.alistFind_upd_self]

theorem handle_intent_task_results (env : OrchEnv) (st : OrchState) (intent : Intent)
    (cid : String) :
    ((handle_intent env st intent cid).1).task_results = st.task_results := by
  simp [handle_intent, emitEvent_task_results]

end OrchestratorModel

namespace OrchestratorModel

theorem markExecuting_cbs (st : OrchState) (plan : Plan) (cid : String) :
    (markExecuting st plan cid).response_callbacks = st.response_callbacks := by
  unfold markExecuting
  cases PyDict.alistFind st.active_intents cid <;> rfl

theorem markExecuting_results (st : OrchState) (plan : Plan) (cid : String) :
    (markExecuting st plan cid).task_results = st.task_results := by
  unfold markExecuting
  cases PyDict.alistFind st.active_intents cid <;> rfl

theorem markExecuting_active_isSome (st : OrchState) (plan : Plan) (cid : String)
    (h : (PyDict.alistFind st.active_intents cid).isSome = true) :
    (PyDict.alistFind (markExecuting st plan cid).active_intents cid).isSome = true := by
  unfold markExecuting
  cases hai : PyDict.alistFind st.active_intents cid with
  | none => rw [hai] at h; simp at h
  | some ai => simp [PyDict.alistFind_upd_self]

theorem preAnalysisTrace_not_task (plan : Plan) (cid : String) :
    ∀ a ∈ preAnalysisTrace plan cid, isTaskAction a = false := by
  by_cases hana : plan.analysis = "" <;>
    simp [preAnalysisTrace, hana, isTaskAction, isToolEvent, thinkingEvent]

theorem find_preAnalysisState_cbs (st : OrchState) (plan : Plan) (cid : String) :
    PyDict.alistFind (preAnalysisState st plan cid).response_callbacks cid
      = (PyDict.alistFind st.response_callbacks cid).map
          (fun q => q ++ emittedEvents (preAnalysisTrace plan cid)) := by
  by_cases hana : plan.analysis = ""
  · simp only [preAnalysisState, preAnalysisTrace, hana, if_true, emittedEvents_nil]
    cases PyDict.alistFind st.response_callbacks cid <;> simp
  · simp [preAnalysisState, preAnalysisTrace, hana]

theorem handle_plan_exec_shape (env : OrchEnv) (st : OrchState) (plan : Plan)
    (cid : String) :
    ∃ pre post,
      (handle_plan_exec env st plan cid).2
        = pre ++ (executionOrderOf plan).flatMap (taskBlock env cid plan.tasks) ++ post ∧
      (∀ a ∈ pre, isTaskAction a = false) ∧
      (∀ a ∈ post, isTaskAction a = false) ∧
      post.getLast? = some (Action.emit (doneEvent cid)) := by
  refine ⟨preAnalysisTrace plan cid ++ [Action.emit (planSummaryEvent plan cid)],
    (generate_final_answer env
      (execLoop env cid plan.tasks
        (emitEvent (preAnalysisState st plan cid) (planSummaryEvent plan cid))
        (executionOrderOf plan)).1 cid).2, ?_, ?_, ?_, ?_⟩
  · simp only [handle_plan_exec]
    rw [(execLoop_spec env cid plan.tasks (executionOrderOf plan) _).1]
    simp
  · intro a ha
    simp only [List.mem_append, List.mem_singleton] at ha
    rcases ha with ha | rfl
    · exact preAnalysisTrace_not_task plan cid a ha
    · rfl
  · exact gfa_actions_not_task env _ cid
  · exact gfa_trace_last env _ cid

theorem find_handle_plan_exec_cbs (env : OrchEnv) (st : OrchState) (plan : Plan)
    (cid : String) :
    PyDict.alistFind ((handle_plan_exec env st plan cid).1).response_callbacks cid
      = (PyDict.alistFind st.response_callbacks cid).map
          (fun q => q ++ emittedEvents ((handle_plan_exec env st plan cid).2)) := by
  simp only [handle_plan_exec]
  rw [find_gfa_cbs, find_execLoop_cbs,
    show (planSummaryEvent plan cid) = planningEvent cid
      ("將執行 " ++ toString plan.tasks.length ++ " 個任務來回答問題")
      (collectQueries plan.tasks) (plan.tasks.map taskDescOf) from rfl,
    find_emit_planning, find_preAnalysisState_cbs,
    (execLoop_spec env cid plan.tasks (executionOrderOf plan) _).1]
  cases PyDict.alistFind st.response_callbacks cid <;>
    simp [emitted_taskBlocks, planSummaryEvent]

theorem handle_plan_exec_results_stored (env : OrchEnv) (st : OrchState) (plan : Plan)
    (cid tid : String) (htid : tid ∈ executionOrderOf plan)
    (hsome : (taskMapFind plan.tasks tid).isSome = true) :
    PyDict.alistFind ((handle_plan_exec env st plan cid).1).task_results tid
      = some (wait_for_task_result env tid) := by
  simp only [handle_plan_exec]
  rw [gfa_task_results]
  exact execLoop_results_stored env cid plan.tasks (executionOrderOf plan) _ tid htid hsome

theorem handle_plan_exec_active_pop (env : OrchEnv) (st : OrchState) (plan : Plan)
    (cid : String) :
    PyDict.alistFind ((handle_plan_exec env st plan cid).1).active_intents cid = none := by
  simp only [handle_plan_exec]
  exact gfa_active_pop env _ cid

theorem getLast?_cons_append {α : Type} (a : α) (l1 l2 : List α) (x : α)
    (h : l2.getLast? = some x) : (a :: (l1 ++ l2)).getLast? = some x := by
  have h2 : l2 ≠ [] := by
    intro hh
    rw [hh] at h
    simp at h
  rw [show a :: (l1 ++ l2) = (a :: l1) ++ l2 by simp]
  rw [List.getLast?_append_of_ne_nil _ h2]
  exact h

theorem handle_plan_exec_trace_last (env : OrchEnv) (st : OrchState) (plan : Plan)
    (cid : String) :
    ((handle_plan_exec env st plan cid).2).getLast?
      = some (Action.emit (doneEvent cid)) := by
  simp only [handle_plan_exec]
  have hfin := gfa_trace_last env (execLoop env cid plan.tasks
    (emitEvent (preAnalysisState st plan cid) (planSummaryEvent plan cid))
    (executionOrderOf plan)).1 cid
  have hne : (generate_final_answer env (execLoop env cid plan.tasks
      (emitEvent (preAnalysisState st plan cid) (planSummaryEvent plan cid))
      (executionOrderOf plan)).1 cid).2 ≠ [] := by
    intro hh
    rw [hh] at hfin
    simp at hfin
  rw [List.getLast?_append_of_ne_nil _ hne]
  exact hfin

end OrchestratorModel

namespace OrchestratorModel

theorem emit_mem_of_mem_emitted {e : Event} :
    ∀ {tr : List Action}, e ∈ emittedEvents tr → Action.emit e ∈ tr := by
  intro tr
  induction tr with
  | nil => intro h; simp [emittedEvents] at h
  | cons a t ih =>
    intro h
    cases a with
    | emit e' =>
      rw [emittedEvents_cons_emit] at h
      rcases List.mem_cons.mp h with rfl | h
      · exact List.mem_cons_self _ _
      · exact List.mem_cons_of_mem _ (ih h)
    | dispatch task =>
      rw [emittedEvents_cons_dispatch] at h
      exact List.mem_cons_of_mem _ (ih h)
    | obtain tid r =>
      rw [emittedEvents_cons_obtain] at h
      exact List.mem_cons_of_mem _ (ih h)

theorem tasks_isEmpty_false_of_found (plan : Plan) (tid : String)
    (hsome : (taskMapFind plan.tasks tid).isSome = true) :
    plan.tasks.isEmpty = false := by
  cases h : plan.tasks with
  | nil => rw [h] at hsome; simp [taskMapFind] at hsome
  | cons a t => rfl

theorem handle_plan_shape (env : OrchEnv) (st : OrchState) (plan : Plan) (cid : String)
    (hall : ∀ tid ∈ executionOrderOf plan, (taskMapFind plan.tasks tid).isSome = true) :
    ∃ pre post,
      (handle_plan env st plan cid).2
        = pre ++ (executionOrderOf plan).flatMap (taskBlock env cid plan.tasks) ++ post ∧
      (∀ a ∈ pre, isTaskAction a = false) ∧
      (∀ a ∈ post, isTaskAction a = false) ∧
      post.getLast? = some (Action.emit (doneEvent cid)) := by
  cases hemp : plan.tasks.isEmpty with
  | true =>
    have hnil : plan.tasks = [] := by simpa using hemp
    have horder := order_nil_of_tasks_nil plan hnil hall
    refine ⟨[], [Action.emit (answerEvent cid plan.analysis),
      Action.emit (doneEvent cid)], ?_, by simp, ?_, rfl⟩
    · simp only [handle_plan, hemp, if_true]
      rw [horder]
      simp [generate_response]
    · intro a ha
      simp only [List.mem_cons, List.mem_singleton] at ha
      rcases ha with rfl | rfl | h0
      · rfl
      · rfl
      · simp at h0
  | false =>
    simp only [handle_plan, hemp, Bool.false_eq_true, if_false]
    exact handle_plan_exec_shape env _ plan cid

theorem handle_plan_results_stored (env : OrchEnv) (st : OrchState) (plan : Plan)
    (cid tid : String) (htid : tid ∈ executionOrderOf plan)
    (hsome : (taskMapFind plan.tasks tid).isSome = true) :
    PyDict.alistFind ((handle_plan env st plan cid).1).task_results tid
      = some (wait_for_task_result env tid) := by
  have hemp := tasks_isEmpty_false_of_found plan tid hsome
  simp only [handle_plan, hemp, Bool.false_eq_true, if_false]
  exact handle_plan_exec_results_stored env _ plan cid tid htid hsome

theorem handle_plan_active_pop (env : OrchEnv) (st : OrchState) (plan : Plan)
    (cid : String) (hne : plan.tasks ≠ []) :
    PyDict.alistFind ((handle_plan env st plan cid).1).active_intents cid = none := by
  have hemp : plan.tasks.isEmpty = false := by
    cases h : plan.tasks with
    | nil => exact absurd h hne
    | cons a t => rfl
  simp only [handle_plan, hemp, Bool.false_eq_true, if_false]
  exact handle_plan_exec_active_pop env _ plan cid

theorem find_handle_plan_cbs (env : OrchEnv) (st : OrchState) (plan : Plan)
    (cid : String) :
    PyDict.alistFind ((handle_plan env st plan cid).1).response_callbacks cid
      = (PyDict.alistFind st.response_callbacks cid).map
          (fun q => q ++ emittedEvents ((handle_plan env st plan cid).2)) := by
  cases hemp : plan.tasks.isEmpty with
  | true =>
    simp only [handle_plan, hemp, if_true]
    rw [find_genresp_cbs]
    rw [markExecuting_cbs]
  | false =>
    simp only [handle_plan, hemp, Bool.false_eq_true, if_false]
    rw [find_handle_plan_exec_cbs, markExecuting_cbs]

theorem handle_plan_empty_results (env : OrchEnv) (st : OrchState) (plan : Plan)
    (cid : String) (hnil : plan.tasks = []) :
    ((handle_plan env st plan cid).1).task_results = st.task_results := by
  have hemp : plan.tasks.isEmpty = true := by rw [hnil]; rfl
  simp only [handle_plan, hemp, if_true]
  rw [genresp_task_results, markExecuting_results]

theorem handle_plan_empty_active (env : OrchEnv) (st : OrchState) (plan : Plan)
    (cid : String) (hnil : plan.tasks = [])
    (h : (PyDict.alistFind st.active_intents cid).isSome = true) :
    (PyDict.alistFind ((handle_plan env st plan cid).1).active_intents cid).isSome
      = true := by
  have hemp : plan.tasks.isEmpty = true := by rw [hnil]; rfl
  simp only [handle_plan, hemp, if_true]
  rw [genresp_active_intents]
  exact markExecuting_active_isSome st plan cid h

theorem handle_plan_trace_last (env : OrchEnv) (st : OrchState) (plan : Plan)
    (cid : String) :
    ((handle_plan env st plan cid).2).getLast? = some (Action.emit (doneEvent cid)) := by
  cases hemp : plan.tasks.isEmpty with
  | true =>
    simp only [handle_plan, hemp, if_true]
    rfl
  | false =>
    simp only [handle_plan, hemp, Bool.false_eq_true, if_false]
    exact handle_plan_exec_trace_last env _ plan cid

end OrchestratorModel

namespace OrchestratorModel

theorem filter_tool_self_of_all_tool {l : List Event}
    (h : ∀ e ∈ l, isToolEvent e.type = true) :
    l.filter (fun e => isToolEvent e.type) = l := by
  induction l with
  | nil => rfl
  | cons e t ih =>
    have he := h e (by simp)
    have ht := ih (fun x hx => h x (by simp [hx]))
    simp [List.filter_cons, he, ht]

/-- C1: for a plan in which every id of `execution_order` exists in the
task map, `_handle_plan` performs the tasks strictly sequentially in
`execution_order`: the trace decomposes into a prefix and suffix free of
task actions around one four-step block per `execution_order` entry
(`tool_call` emitted, then the dispatch, then the result acquisition,
then `tool_result` emitted); the `tool_call`/`tool_result` events put on
the correlation's queue are exactly one pair per entry, in order — in
particular exactly `2 * len(execution_order)` such events — and the
queue receives exactly the emitted events appended in order. -/
theorem C1_plan_event_pairs (env : OrchEnv) (st : OrchState) (plan : Plan)
    (cid : String) (q0 : List Event)
    (hall : ∀ tid ∈ executionOrderOf plan, (taskMapFind plan.tasks tid).isSome = true)
    (hq : PyDict.alistFind st.response_callbacks cid = some q0) :
    (∃ pre post,
      (handle_plan env st plan cid).2
        = pre ++ (executionOrderOf plan).flatMap (taskBlock env cid plan.tasks) ++ post ∧
      (∀ a ∈ pre, isTaskAction a = false) ∧
      (∀ a ∈ post, isTaskAction a = false)) ∧
    (emittedEvents ((handle_plan env st plan cid).2)).filter (fun e => isToolEvent e.type)
      = (executionOrderOf plan).flatMap (taskPairEvents env cid plan.tasks) ∧
    ((emittedEvents ((handle_plan env st plan cid).2)).filter
        (fun e => isToolEvent e.type)).length = 2 * (executionOrderOf plan).length ∧
    PyDict.alistFind ((handle_plan env st plan cid).1).response_callbacks cid
      = some (q0 ++ emittedEvents ((handle_plan env st plan cid).2)) := by
  obtain ⟨pre, post, heq, hpre, hpost, hlast⟩ := handle_plan_shape env st plan cid hall
  have hfilter : (emittedEvents ((handle_plan env st plan cid).2)).filter
      (fun e => isToolEvent e.type)
      = (executionOrderOf plan).flatMap (taskPairEvents env cid plan.tasks) := by
    rw [heq, emittedEvents_append, emittedEvents_append, List.filter_append,
      List.filter_append, emitted_taskBlocks,
      @filter_tool_nil_of_not_task (emittedEvents pre) (fun e he => by
        simpa [isTaskAction] using hpre (Action.emit e) (emit_mem_of_mem_emitted he)),
      @filter_tool_nil_of_not_task (emittedEvents post) (fun e he => by
        simpa [isTaskAction] using hpost (Action.emit e) (emit_mem_of_mem_emitted he)),
      filter_tool_self_of_all_tool (taskPairEvents_all_tool env cid plan.tasks _)]
    simp
  refine ⟨⟨pre, post, heq, hpre, hpost⟩, hfilter, ?_, ?_⟩
  · rw [hfilter]
    exact taskPairEvents_length env cid plan.tasks _ hall
  · rw [find_handle_plan_cbs, hq]
    rfl

/-- C1 witness: a single-task plan with a registered queue — one
`tool_call`/`tool_result` pair is put on the queue for the one entry of
`execution_order`. -/
theorem C1_plan_event_pairs_witness :
    ((emittedEvents ((handle_plan
        ({ now := 0, arrival := fun _ => none, answer := fun _ _ => AnswerOutcome.ok "a" }
          : OrchEnv)
        ({ response_callbacks := [("c", [])] } : OrchState)
        ({ analysis := "", tasks := [{ id := "t1", tool := "rag_search" }],
           execution_order := some ["t1"] } : Plan) "c").2)).filter
      (fun e => isToolEvent e.type)).length
      = 2 * (executionOrderOf
          ({ analysis := "", tasks := [{ id := "t1", tool := "rag_search" }],
             execution_order := some ["t1"] } : Plan)).length ∧
    PyDict.alistFind ((handle_plan
        ({ now := 0, arrival := fun _ => none, answer := fun _ _ => AnswerOutcome.ok "a" }
          : OrchEnv)
        ({ response_callbacks := [("c", [])] } : OrchState)
        ({ analysis := "", tasks := [{ id := "t1", tool := "rag_search" }],
           execution_order := some ["t1"] } : Plan) "c").1).response_callbacks "c"
      = some ([] ++ emittedEvents ((handle_plan
        ({ now := 0, arrival := fun _ => none, answer := fun _ _ => AnswerOutcome.ok "a" }
          : OrchEnv)
        ({ response_callbacks := [("c", [])] } : OrchState)
        ({ analysis := "", tasks := [{ id := "t1", tool := "rag_search" }],
           execution_order := some ["t1"] } : Plan) "c").2)) := by
  have h := C1_plan_event_pairs
    ({ now := 0, arrival := fun _ => none, answer := fun _ _ => AnswerOutcome.ok "a" }
      : OrchEnv)
    ({ response_callbacks := [("c", [])] } : OrchState)
    ({ analysis := "", tasks := [{ id := "t1", tool := "rag_search" }],
       execution_order := some ["t1"] } : Plan) "c" [] (by decide) rfl
  exact ⟨h.2.2.1, h.2.2.2⟩

/-- C6: during plan execution for a plan whose `execution_order` ids all
exist, a task whose executor result never arrives within the 30-second
`_wait_for_task_result` window yields the `{"error": "Task timeout"}`
placeholder; the placeholder is stored as the task's result, its
four-step block (including the `tool_result` emission) still appears in
the trace along with every other entry's block, and the trace still ends
with the terminal `done` event. -/
theorem C6_task_timeout_continues (env : OrchEnv) (st : OrchState) (plan : Plan)
    (cid tid : String)
    (hall : ∀ t ∈ executionOrderOf plan, (taskMapFind plan.tasks t).isSome = true)
    (htid : tid ∈ executionOrderOf plan)
    (hlate : ∀ (d : Rat) (r : TResult), env.arrival tid = some (d, r)
      → waitTimeoutSeconds ≤ d) :
    wait_for_task_result env tid = timeoutPlaceholder ∧
    PyDict.alistFind ((handle_plan env st plan cid).1).task_results tid
      = some timeoutPlaceholder ∧
    Action.emit (toolResultEvent cid timeoutPlaceholder)
      ∈ taskBlock env cid plan.tasks tid ∧
    (∃ pre post,
      (handle_plan env st plan cid).2
        = pre ++ (executionOrderOf plan).flatMap (taskBlock env cid plan.tasks) ++ post) ∧
    ((handle_plan env st plan cid).2).getLast? = some (Action.emit (doneEvent cid)) := by
  have hwait : wait_for_task_result env tid = timeoutPlaceholder := by
    unfold wait_for_task_result
    cases h : env.arrival tid with
    | none => rfl
    | some dr =>
      obtain ⟨d, r⟩ := dr
      have hnl : ¬(d < waitTimeoutSeconds) := not_lt.mpr (hlate d r h)
      simp [hnl]
  refine ⟨hwait, ?_, ?_, ?_, handle_plan_trace_last env st plan cid⟩
  · rw [← hwait]
    exact handle_plan_results_stored env st plan cid tid htid (hall tid htid)
  · obtain ⟨task, htask⟩ := Option.isSome_iff_exists.mp (hall tid htid)
    rw [taskBlock, htask, hwait]
    simp
  · obtain ⟨pre, post, heq, _, _, _⟩ := handle_plan_shape env st plan cid hall
    exact ⟨pre, post, heq⟩

/-- C6 witness: a two-task plan whose executor never replies — both
tasks time out, `t1`'s stored result is the placeholder, its
`tool_result` emission is in its block, and the trace ends with `done`. -/
theorem C6_task_timeout_continues_witness :
    wait_for_task_result
      ({ now := 0, arrival := fun _ => none, answer := fun _ _ => AnswerOutcome.ok "a" }
        : OrchEnv) "t1" = timeoutPlaceholder ∧
    PyDict.alistFind ((handle_plan
        ({ now := 0, arrival := fun _ => none, answer := fun _ _ => AnswerOutcome.ok "a" }
          : OrchEnv)
        ({ response_callbacks := [("c", [])] } : OrchState)
        ({ analysis := "", tasks := [{ id := "t1", tool := "rag_search" },
            { id := "t2", tool := "rag_search" }],
           execution_order := some ["t1", "t2"] } : Plan) "c").1).task_results "t1"
      = some timeoutPlaceholder ∧
    ((handle_plan
        ({ now := 0, arrival := fun _ => none, answer := fun _ _ => AnswerOutcome.ok "a" }
          : OrchEnv)
        ({ response_callbacks := [("c", [])] } : OrchState)
        ({ analysis := "", tasks := [{ id := "t1", tool := "rag_search" },
            { id := "t2", tool := "rag_search" }],
           execution_order := some ["t1", "t2"] } : Plan) "c").2).getLast?
      = some (Action.emit (doneEvent "c")) := by
  have h := C6_task_timeout_continues
    ({ now := 0, arrival := fun _ => none, answer := fun _ _ => AnswerOutcome.ok "a" }
      : OrchEnv)
    ({ response_callbacks := [("c", [])] } : OrchState)
    ({ analysis := "", tasks := [{ id := "t1", tool := "rag_search" },
        { id := "t2", tool := "rag_search" }],
       execution_order := some ["t1", "t2"] } : Plan) "c" "t1"
    (by decide) (by decide)
    (by intro d r hcontra; simp at hcontra)
  exact ⟨h.1, h.2.1, h.2.2.2.2⟩

end OrchestratorModel

namespace OrchestratorModel

/-- C7 counterexample: on the no-task path the terminal `done` event is
emitted, yet the correlation's `active_intents` entry is still present
afterwards (and would equally remain in `task_results` on the normal
path) — the maps are not popped clean on every terminal path. -/
theorem C7_counterexample :
    ((process_intent
        ({ now := 0, arrival := fun _ => none, answer := fun _ _ => AnswerOutcome.ok "a",
           plannerPlan := some { analysis := "x" } } : OrchEnv)
        {} ({ id := "c1" } : Intent)).1).getLast? = some (doneEvent "c1") ∧
    (PyDict.alistFind ((process_intent
        ({ now := 0, arrival := fun _ => none, answer := fun _ _ => AnswerOutcome.ok "a",
           plannerPlan := some { analysis := "x" } } : OrchEnv)
        {} ({ id := "c1" } : Intent)).2).active_intents "c1").isSome = true := by
  decide

/-- C7 amended: per terminal path — (1) on the normal completion path
`_generate_final_answer` pops the correlation's `active_intents` entry,
but every executed task's stored result remains in `task_results`;
(2) on the no-task path `task_results` is untouched and the
correlation's `active_intents` entry is NOT popped; (3) on the
stream-timeout path the synthetic error event terminates the stream but
the `active_intents` entry written by `_handle_intent` remains and
`task_results` is untouched (only the response queue entry is popped). -/
theorem C7_cleanup_partial :
    (∀ (env : OrchEnv) (st : OrchState) (plan : Plan) (cid : String),
      plan.tasks ≠ [] →
      PyDict.alistFind ((handle_plan env st plan cid).1).active_intents cid = none ∧
      (∀ tid ∈ executionOrderOf plan, (taskMapFind plan.tasks tid).isSome = true →
        PyDict.alistFind ((handle_plan env st plan cid).1).task_results tid
          = some (wait_for_task_result env tid))) ∧
    (∀ (env : OrchEnv) (st : OrchState) (plan : Plan) (cid : String),
      plan.tasks = [] →
      ((handle_plan env st plan cid).1).task_results = st.task_results ∧
      ((PyDict.alistFind st.active_intents cid).isSome = true →
        (PyDict.alistFind ((handle_plan env st plan cid).1).active_intents cid).isSome
          = true)) ∧
    (∀ (env : OrchEnv) (st : OrchState) (intent : Intent),
      env.plannerPlan = none →
      ((process_intent env st intent).1).getLast?
        = some (errorEvent intent.id "Processing timeout") ∧
      (PyDict.alistFind ((process_intent env st intent).2).active_intents
        intent.id).isSome = true ∧
      ((process_intent env st intent).2).task_results = st.task_results) := by
  refine ⟨?_, ?_, ?_⟩
  · intro env st plan cid hne
    exact ⟨handle_plan_active_pop env st plan cid hne,
      fun tid htid hsome => handle_plan_results_stored env st plan cid tid htid hsome⟩
  · intro env st plan cid hnil
    exact ⟨handle_plan_empty_results env st plan cid hnil,
      fun h => handle_plan_empty_active env st plan cid hnil h⟩
  · intro env st intent hplanner
    refine ⟨?_, ?_, ?_⟩
    · simp only [process_intent, hplanner]
      simp [List.getLast?_concat]
    · simp only [process_intent, hplanner]
      simp [handle_intent_active]
    · simp only [process_intent, hplanner]
      simp [handle_intent_task_results]

/-- C7 amended witness: the three paths on concrete inputs — a one-task
plan (entry popped, result retained), an empty plan on a state holding
the correlation (entry retained), and a stuck planner (error-terminated
stream, entry retained). -/
theorem C7_cleanup_partial_witness :
    PyDict.alistFind ((handle_plan
        ({ now := 0, arrival := fun _ => none, answer := fun _ _ => AnswerOutcome.ok "a" }
          : OrchEnv) {}
        ({ analysis := "", tasks := [{ id := "t1", tool := "rag_search" }],
           execution_order := some ["t1"] } : Plan) "c").1).active_intents "c" = none ∧
    PyDict.alistFind ((handle_plan
        ({ now := 0, arrival := fun _ => none, answer := fun _ _ => AnswerOutcome.ok "a" }
          : OrchEnv) {}
        ({ analysis := "", tasks := [{ id := "t1", tool := "rag_search" }],
           execution_order := some ["t1"] } : Plan) "c").1).task_results "t1"
      = some (wait_for_task_result
        ({ now := 0, arrival := fun _ => none, answer := fun _ _ => AnswerOutcome.ok "a" }
          : OrchEnv) "t1") ∧
    ((handle_plan
        ({ now := 0, arrival := fun _ => none, answer := fun _ _ => AnswerOutcome.ok "a" }
          : OrchEnv)
        ({ active_intents := [("c", ⟨{ id := "c" }, "planning", 0, none⟩)] } : OrchState)
        ({ analysis := "x" } : Plan) "c").1).task_results
      = ({ active_intents := [("c", ⟨{ id := "c" }, "planning", 0, none⟩)] }
          : OrchState).task_results ∧
    (PyDict.alistFind ((handle_plan
        ({ now := 0, arrival := fun _ => none, answer := fun _ _ => AnswerOutcome.ok "a" }
          : OrchEnv)
        ({ active_intents := [("c", ⟨{ id := "c" }, "planning", 0, none⟩)] } : OrchState)
        ({ analysis := "x" } : Plan) "c").1).active_intents "c").isSome = true ∧
    ((process_intent
        ({ now := 0, arrival := fun _ => none, answer := fun _ _ => AnswerOutcome.ok "a",
           plannerPlan := none } : OrchEnv) {} ({ id := "c1" } : Intent)).1).getLast?
      = some (errorEvent "c1" "Processing timeout") ∧
    (PyDict.alistFind ((process_intent
        ({ now := 0, arrival := fun _ => none, answer := fun _ _ => AnswerOutcome.ok "a",
           plannerPlan := none } : OrchEnv) {}
        ({ id := "c1" } : Intent)).2).active_intents "c1").isSome = true := by
  have h := C7_cleanup_partial
  have h1 := h.1
    ({ now := 0, arrival := fun _ => none, answer := fun _ _ => AnswerOutcome.ok "a" }
      : OrchEnv) {}
    ({ analysis := "", tasks := [{ id := "t1", tool := "rag_search" }],
       execution_order := some ["t1"] } : Plan) "c" (by decide)
  have h2 := h.2.1
    ({ now := 0, arrival := fun _ => none, answer := fun _ _ => AnswerOutcome.ok "a" }
      : OrchEnv)
    ({ active_intents := [("c", ⟨{ id := "c" }, "planning", 0, none⟩)] } : OrchState)
    ({ analysis := "x" } : Plan) "c" rfl
  have h3 := h.2.2
    ({ now := 0, arrival := fun _ => none, answer := fun _ _ => AnswerOutcome.ok "a",
       plannerPlan := none } : OrchEnv) {} ({ id := "c1" } : Intent) rfl
  exact ⟨h1.1, h1.2 "t1" (by decide) (by decide), h2.1, h2.2 (by decide), h3.1, h3.2.1⟩

end OrchestratorModel
